import Mathlib

/-!
Verification of the dex-contacts plugin's content-block detector, content
hasher, inline annotation codec, sync-state classifier and sync orchestrator.

The TypeScript source is shallowly embedded: strings are `List Char`
(`Str`), a document is a `List Str` of its lines, JavaScript regular
expressions are translated into deterministic scanning functions that
implement exactly the matching semantics of the concrete patterns used by
the source (each pattern is simple enough that greedy matching with
group-skipping backtracking is deterministic), and the asynchronous remote
API is an explicit function argument `RemoteCall → RemoteAnswer`.

Sources embedded here:
  - src/utils/content-hash.ts            (simpleHash, cleanContentForHashing)
  - src/constants.ts                     (MEMO_ID_PATTERN, MEMO_ID_CLEANUP_PATTERN)
  - src/utils/content-block-detector.ts  (detectContentBlock)
  - src/ui/sync-buttons/codemirror-extension.ts (findContentBlockEnd)
  - src/utils/content-processor.ts       (ContentProcessor.getContentBlock)
  - src/core/memo-manager.ts             (MemoManager.syncContactMemo)
  - main.ts                              (DexContactsPlugin.countMemos)
-/

/-- Strings are modelled as lists of characters (JS strings over the BMP;
all text handled by the plugin is ASCII). -/
abbrev Str := List Char

/-- JavaScript whitespace (`\s`, `trim()`), restricted to the ASCII range
that can occur in the plugin's documents. -/
def isJsWS (c : Char) : Bool :=
  c = ' ' || c = '\t' || c = '\n' || c = '\r' || c = '\x0b' || c = '\x0c'

/-- `List.span`, re-implemented so that its equations unfold definitionally. -/
def spanP (p : Char → Bool) : Str → (Str × Str)
  | [] => ([], [])
  | c :: cs =>
    if p c then
      let r := spanP p cs
      (c :: r.1, r.2)
    else ([], c :: cs)

/-- Strip leading JS whitespace (`trimStart`). -/
def trimLeftJS : Str → Str
  | [] => []
  | c :: cs => if isJsWS c then trimLeftJS cs else c :: cs

/-- JavaScript `String.prototype.trim()`. -/
def trimJS (s : Str) : Str :=
  trimLeftJS ((trimLeftJS s.reverse).reverse)

/-- JavaScript `line.search(/\S/)`: index of the first non-whitespace
character, `-1` when the line is all whitespace. -/
def searchNonWS : Str → Int
  | [] => -1
  | c :: cs =>
    if isJsWS c then
      let r := searchNonWS cs
      if r = -1 then -1 else r + 1
    else 0

/-- JavaScript `String.prototype.startsWith`. -/
def strStarts : Str → Str → Bool
  | [], _ => true
  | _ :: _, [] => false
  | p :: ps, c :: cs => p = c && strStarts ps cs

/-- Match a literal pattern at the head of the text (case-sensitive);
returns the remaining text. -/
def stripLit : Str → Str → Option Str
  | [], s => some s
  | _ :: _, [] => none
  | p :: ps, c :: cs => if p = c then stripLit ps cs else none

/-- ASCII lower-casing, as used by the JS regex `i` flag on the plugin's
ASCII patterns. -/
def lowerC (c : Char) : Char :=
  if 'A' ≤ c && c ≤ 'Z' then Char.ofNat (c.toNat + 32) else c

/-- Match a literal pattern case-insensitively at the head of the text;
returns the consumed text together with the remaining text. -/
def ciStrip : Str → Str → Option (Str × Str)
  | [], s => some ([], s)
  | _ :: _, [] => none
  | p :: ps, c :: cs =>
    if lowerC p = lowerC c then
      (ciStrip ps cs).map (fun r => (c :: r.1, r.2))
    else none

/-- JavaScript `ToInt32` (the effect of `x | 0` / `x & x`). -/
def toInt32 (x : Int) : Int :=
  let m := x % 4294967296
  if m < 2147483648 then m else m - 4294967296

/-- One step of the hash loop of `simpleHash`:
`hash = ((hash << 5) - hash) + char; hash = hash & hash;`. -/
def simpleHashStep (h : Int) (c : Char) : Int :=
  toInt32 (toInt32 (h * 32) - h + (c.toNat : Int))

def simpleHashAux : Str → Int → Int
  | [], h => h
  | c :: cs, h => simpleHashAux cs (simpleHashStep h c)

/-- Digit character for base-36 (`0-9a-z`), as produced by JS `toString(36)`. -/
def digit36 (d : Nat) : Char :=
  if d < 10 then Char.ofNat (48 + d) else Char.ofNat (87 + d)

/-- Digits of `n` in base 36, most significant first; `fuel` bounds the
recursion (`fuel ≥ n` always suffices). -/
def toBase36Go : Nat → Nat → Str
  | 0, _ => []
  | fuel + 1, n => if n = 0 then [] else toBase36Go fuel (n / 36) ++ [digit36 (n % 36)]

/-- JavaScript `Math.abs(n).toString(36)` for a 32-bit integer `n`. -/
def toBase36 (n : Nat) : Str :=
  if n = 0 then ['0'] else toBase36Go n n

/-- `simpleHash` from src/utils/content-hash.ts: the 32-bit multiplicative
string hash, rendered in base 36. -/
def simpleHash (s : Str) : Str :=
  toBase36 (simpleHashAux s 0).natAbs

/-- Find the first (leftmost) position at which the matcher `m` succeeds,
trying every suffix of the input left to right (JS regex scan semantics).
Returns the text before the match together with the match data. -/
def scanFirst (m : Str → Option α) : Str → Option (Str × α)
  | [] => (m []).map (fun a => ([], a))
  | c :: cs =>
    match m (c :: cs) with
    | some a => some ([], a)
    | none => (scanFirst m cs).map (fun pa => (c :: pa.1, pa.2))

/-- `Array.prototype.join('\n')`, used to assemble a block's content. -/
def joinNL : List Str → Str
  | [] => []
  | [x] => x
  | x :: y :: xs => x ++ '\n' :: joinNL (y :: xs)

/-- Read line `i` of a document (total: out-of-range reads give the empty
line; all uses in the source are in range). -/
def getLineD (doc : List Str) (i : Nat) : Str := doc.getD i []

/-! ### The annotation grammar (src/constants.ts)

`MEMO_ID_PATTERN =
  /%%dex:(?:contact-id=([^,%)]+))?(?:,memo-id=([^,%)]+))?(?:,hash=([^,%)]+))?%%/`

`MEMO_ID_CLEANUP_PATTERN = /%%dex:[^%]*%%/g`

The three capture groups are each a greedy `[^,%)]+` run.  Because the run
class excludes exactly the characters that every following literal starts
with (`,` and `%`), a shorter-than-maximal run can never make a later
literal match, so JS backtracking reduces to: maximal-munch runs, with each
optional group tried present-first and skipped on failure. -/

/-- A greedy `[^,%)]+` run: the value of one annotation field. -/
def fieldRun (s : Str) : Option (Str × Str) :=
  let r := spanP (fun c => !(c = ',' || c = '%' || c = ')')) s
  if r.1.isEmpty then none else some r

/-- Try `(?:contact-id=([^,%)]+))?` at the head of the text. -/
def tryG1 (s : Str) : Option (Str × Str) :=
  (stripLit (("contact-id=").toList) s).bind fieldRun

/-- Try `(?:,memo-id=([^,%)]+))?` at the head of the text. -/
def tryG2 (s : Str) : Option (Str × Str) :=
  (stripLit ((",memo-id=").toList) s).bind fieldRun

/-- Try `(?:,hash=([^,%)]+))?` at the head of the text. -/
def tryG3 (s : Str) : Option (Str × Str) :=
  (stripLit ((",hash=").toList) s).bind fieldRun

/-- The closing `%%` of an annotation. -/
def closeAnn (s : Str) : Option Str := stripLit (("%%").toList) s

/-- Parsed capture groups of `MEMO_ID_PATTERN`:
(contact-id, memo-id, hash); `none` = the group did not participate. -/
abbrev MemoGroups := Option Str × Option Str × Option Str

/-- Optional hash group then the closing `%%` (with group-skip backtracking). -/
def memoGroupsG3 (g1 g2 : Option Str) (s : Str) : Option (MemoGroups × Str) :=
  match tryG3 s with
  | some (h, r) =>
    match closeAnn r with
    | some rest => some ((g1, g2, some h), rest)
    | none => (closeAnn s).map (fun rest => ((g1, g2, none), rest))
  | none => (closeAnn s).map (fun rest => ((g1, g2, none), rest))

/-- Optional memo-id group, then the hash group and closing `%%`. -/
def memoGroupsTail (g1 : Option Str) (s : Str) : Option (MemoGroups × Str) :=
  match tryG2 s with
  | some (m, r) =>
    match memoGroupsG3 g1 (some m) r with
    | some out => some out
    | none => memoGroupsG3 g1 none s
  | none => memoGroupsG3 g1 none s

/-- `MEMO_ID_PATTERN` matched at the head of the text: `%%dex:` then the
three optional groups in fixed order, then `%%`.  Returns the groups and
the text after the match. -/
def memoIdMatchAt (s : Str) : Option (MemoGroups × Str) :=
  match stripLit (("%%dex:").toList) s with
  | none => none
  | some r =>
    match tryG1 r with
    | some (c, r1) =>
      match memoGroupsTail (some c) r1 with
      | some out => some out
      | none => memoGroupsTail none r
    | none => memoGroupsTail none r

/-- `line.match(MEMO_ID_PATTERN)`: groups of the leftmost match, if any. -/
def memoIdMatch (line : Str) : Option MemoGroups :=
  (scanFirst memoIdMatchAt line).map (fun pa => pa.2.1)

/-- One match of `MEMO_ID_CLEANUP_PATTERN` (`%%dex:[^%]*%%`) at the head of
the text; returns the text after the match. -/
def tryDexCleanupAt (s : Str) : Option Str :=
  match stripLit (("%%dex:").toList) s with
  | none => none
  | some r =>
    let b := spanP (fun c => !(c = '%')) r
    closeAnn b.2

/-- The global replace `content.replace(MEMO_ID_CLEANUP_PATTERN, '')`;
`fuel ≥ s.length` always suffices. -/
def cleanupDexGo : Nat → Str → Str
  | 0, s => s
  | fuel + 1, s =>
    match s with
    | [] => []
    | c :: cs =>
      match tryDexCleanupAt (c :: cs) with
      | some rest => cleanupDexGo fuel rest
      | none => c :: cleanupDexGo fuel cs

/-- Strip every `%%dex:...%%` annotation from the text
(`MEMO_ID_CLEANUP_PATTERN` global replace with the empty string). -/
def cleanupDex (s : Str) : Str := cleanupDexGo s.length s

/-- `cleanContentForHashing` from src/utils/content-hash.ts. -/
def cleanContentForHashing (content : Str) : Str :=
  trimJS (cleanupDex content)

/-- `lastLine.match(/data-hash="([^"]*)"/)` matched at the head of the
text (memo-manager's stored-hash lookup). -/
def dataHashAt (s : Str) : Option (Str × Str) :=
  match stripLit (("data-hash=\"").toList) s with
  | none => none
  | some r =>
    let v := spanP (fun c => !(c = '"')) r
    match v.2 with
    | '"' :: rest => some (v.1, rest)
    | _ => none

/-- Group 1 of the leftmost `/data-hash="([^"]*)"/` match, if any. -/
def dataHashMatch (line : Str) : Option Str :=
  (scanFirst dataHashAt line).map (fun pa => pa.2.1)

/-! ### Line-structure tests (content-block-detector.ts) -/

/-- `/^(\*|-|\+|\d+\.|\d+\))\s/.test(trimmed)`. -/
def isListItemStr (t : Str) : Bool :=
  match t with
  | [] => false
  | c :: rest =>
    if c = '*' || c = '-' || c = '+' then
      match rest with
      | d :: _ => isJsWS d
      | [] => false
    else if c.isDigit then
      let r := spanP Char.isDigit rest
      match r.2 with
      | p :: d :: _ => (p = '.' || p = ')') && isJsWS d
      | _ => false
    else false

/-- `/^>\s/.test(trimmed)`. -/
def isBlockquoteStr (t : Str) : Bool :=
  match t with
  | c :: d :: _ => c = '>' && isJsWS d
  | _ => false

/-- `/^#{1,6}\s/.test(trimmed)`. -/
def isHeaderStr (t : Str) : Bool :=
  let r := spanP (fun c => c = '#') t
  decide (1 ≤ r.1.length) && decide (r.1.length ≤ 6) &&
    (match r.2 with
     | d :: _ => isJsWS d
     | [] => false)

/-! ### Annotation rewrite patterns (MemoManager.syncContactMemo)

The four patterns built inside `syncContactMemo`, all with the `i` flag:

  dexUrlWithComment  =
    `(\[[^\]]*\]\(https:\/\/getdex\.com\/appv3\/contacts\/details\/${id}\))\s*%%dex:[^%]*%%(\s*)`
  vaultLinkWithComment =
    `(\[\[[^\]]+\]\])\s*%%dex:contact-id=${id}(?:,[^%]*)?%%(\s*)`
  dexUrlPattern =
    `(\[[^\]]*\]\(https:\/\/getdex\.com\/appv3\/contacts\/details\/${id}\))`
  vaultLinkPattern = `(\[\[[^\]]+\]\])`

Every quantified class in these patterns excludes the first character of the
literal that follows it, so matching is again deterministic maximal munch. -/

/-- The Dex profile URL prefix literal. -/
def urlLit : Str := ("https://getdex.com/appv3/contacts/details/").toList

/-- Result of matching one of the rewrite patterns at one position:
group 1 (the link), group 2 (trailing whitespace, empty for the patterns
without it) and the text after the whole match. -/
structure MatchParts where
  g1 : Str
  g2 : Str
  rest : Str
deriving DecidableEq, Repr

/-- `dexUrlPattern` matched at the head of the text. -/
def matchDexUrlAt (cid : Str) (s : Str) : Option MatchParts :=
  match s with
  | '[' :: r =>
    let d := spanP (fun c => !(c = ']')) r
    match d.2 with
    | ']' :: '(' :: r2 =>
      match ciStrip urlLit r2 with
      | some (u, r3) =>
        match ciStrip cid r3 with
        | some (cidText, r4) =>
          match r4 with
          | ')' :: r5 =>
            some ⟨'[' :: (d.1 ++ ']' :: '(' :: (u ++ cidText ++ [')'])), [], r5⟩
          | _ => none
        | none => none
      | none => none
    | _ => none
  | _ => none

/-- `dexUrlWithComment` matched at the head of the text. -/
def matchDexUrlWithCommentAt (cid : Str) (s : Str) : Option MatchParts :=
  match matchDexUrlAt cid s with
  | some link =>
    let w := spanP isJsWS link.rest
    match ciStrip (("%%dex:").toList) w.2 with
    | some (_, r7) =>
      let b := spanP (fun c => !(c = '%')) r7
      match ciStrip (("%%").toList) b.2 with
      | some (_, r9) =>
        let t := spanP isJsWS r9
        some ⟨link.g1, t.1, t.2⟩
      | none => none
    | none => none
  | none => none

/-- `vaultLinkPattern` (`(\[\[[^\]]+\]\])`) matched at the head of the text. -/
def matchVaultAt (s : Str) : Option MatchParts :=
  match s with
  | '[' :: '[' :: r =>
    let d := spanP (fun c => !(c = ']')) r
    if d.1.isEmpty then none
    else
      match d.2 with
      | ']' :: ']' :: r2 => some ⟨'[' :: '[' :: (d.1 ++ (("]]").toList)), [], r2⟩
      | _ => none
  | _ => none

/-- `vaultLinkWithComment` matched at the head of the text. -/
def matchVaultWithCommentAt (cid : Str) (s : Str) : Option MatchParts :=
  match matchVaultAt s with
  | some link =>
    let w := spanP isJsWS link.rest
    match ciStrip (("%%dex:contact-id=").toList) w.2 with
    | some (_, r4) =>
      match ciStrip cid r4 with
      | some (_, r5) =>
        match r5 with
        | ',' :: r6 =>
          -- greedy optional `(?:,[^%]*)?` taken, then `%%`
          let b := spanP (fun c => !(c = '%')) r6
          match closeAnn b.2 with
          | some r8 =>
            let t := spanP isJsWS r8
            some ⟨link.g1, t.1, t.2⟩
          | none => none
        | _ =>
          -- optional group skipped (it needs a leading comma), then `%%`
          match closeAnn r5 with
          | some r8 =>
            let t := spanP isJsWS r8
            some ⟨link.g1, t.1, t.2⟩
          | none => none
      | none => none
    | none => none
  | none => none

/-- `line.replace(pattern, replacement)` for a leftmost match of one of the
four rewrite patterns; `none` when `pattern.test(line)` is false. -/
def replaceFirst (m : Str → Option MatchParts) (mk : MatchParts → Str) (line : Str) :
    Option Str :=
  (scanFirst m line).map (fun pa => pa.1 ++ mk pa.2 ++ pa.2.rest)

/-- The full annotation text written by `syncContactMemo`:
`%%dex:contact-id=${contact.id},memo-id=${result.id},hash=${contentHash}%%`. -/
def dexAnnFull (cid mid hash : Str) : Str :=
  ("%%dex:contact-id=").toList ++ cid ++ ((",memo-id=").toList ++ (mid ++
    ((",hash=").toList ++ (hash ++ (("%%").toList)))))

/-- The annotation-rewrite cascade of `syncContactMemo` (steps of the
`if/else` chain on `updatedLine`): replace this contact's existing comment
after its Dex URL link, else after its vault link, else insert a fresh
comment after the contact's Dex URL link, else after the first vault link,
else leave the line unchanged. -/
def rewriteStartLine (cid mid hash : Str) (line : Str) : Str :=
  let ann := dexAnnFull cid mid hash
  match replaceFirst (matchDexUrlWithCommentAt cid) (fun p => p.g1 ++ ann ++ p.g2) line with
  | some l => l
  | none =>
  match replaceFirst (matchVaultWithCommentAt cid) (fun p => p.g1 ++ ann ++ p.g2) line with
  | some l => l
  | none =>
  match replaceFirst (matchDexUrlAt cid) (fun p => p.g1 ++ ann ++ [' ']) line with
  | some l => l
  | none =>
  match replaceFirst matchVaultAt (fun p => p.g1 ++ ann ++ [' ']) line with
  | some l => l
  | none => line

/-! ### Content-block detector (src/utils/content-block-detector.ts) -/

/-- Result record of `detectContentBlock` (line numbers 0-indexed). -/
structure ContentBlockResult where
  endLine : Nat
  contentLines : List Str
  hasExistingMemo : Bool
  memoId : Option Str
  storedHash : Option Str
deriving DecidableEq, Repr

/-- The forward walk of `detectContentBlock` over the lines after the start
line.  Returns the number of included lines and their cleaned texts, in
order.  Each case mirrors one branch of the source's `for` loop. -/
def blockWalk (startIndent : Int) (startIsListItem : Bool) : List Str → Nat × List Str
  | [] => (0, [])
  | currentLine :: restLines =>
    if (trimJS currentLine).isEmpty then (0, [])
    else
      let currentIndent := searchNonWS currentLine
      let trimmedLine := trimJS currentLine
      let isListItem := isListItemStr trimmedLine
      let isBlockquote := isBlockquoteStr trimmedLine
      let isHeader := isHeaderStr trimmedLine
      if startIsListItem && isListItem && currentIndent = startIndent then (0, [])
      else if isHeader && currentIndent ≤ startIndent then (0, [])
      else
        let isIndented := decide (startIndent < currentIndent)
        if isIndented || (isBlockquote && decide (startIndent ≤ currentIndent)) then
          let r := blockWalk startIndent startIsListItem restLines
          (r.1 + 1, cleanupDex currentLine :: r.2)
        else if currentIndent = startIndent && !isListItem && !isHeader then
          let r := blockWalk startIndent startIsListItem restLines
          (r.1 + 1, cleanupDex currentLine :: r.2)
        else (0, [])

/-- The trailing `while (contentLines.length > 1 && !last.trim()) pop()`
loop, expressed on the reversed list. -/
def popTrailingBlankRev : List Str → List Str
  | [] => []
  | [x] => [x]
  | x :: y :: xs =>
    if (trimJS x).isEmpty then popTrailingBlankRev (y :: xs) else x :: y :: xs

/-- Remove trailing blank entries, never reducing below one entry. -/
def popTrailingBlank (l : List Str) : List Str :=
  (popTrailingBlankRev l.reverse).reverse

/-- `detectContentBlock` from src/utils/content-block-detector.ts, with the
editor's `getLine` accessor specialized to a `List Str` document. -/
def detectContentBlock (doc : List Str) (startLineNum : Nat) : ContentBlockResult :=
  let startLine := getLineD doc startLineNum
  let startText := trimJS startLine
  let startIndent := searchNonWS startLine
  let startIsListItem := isListItemStr startText
  let memoMatch := memoIdMatch startLine
  let hasExistingMemo :=
    match memoMatch with
    | some g => g.2.1.isSome
    | none => false
  let memoId : Option Str :=
    match memoMatch with
    | some g => g.2.1
    | none => none
  let storedHash : Option Str :=
    match memoMatch with
    | some g => g.2.2
    | none => none
  let cleanStartLine := trimJS (cleanupDex startLine)
  let w := blockWalk startIndent startIsListItem (doc.drop (startLineNum + 1))
  { endLine := startLineNum + w.1,
    contentLines := popTrailingBlank (cleanStartLine :: w.2),
    hasExistingMemo := hasExistingMemo,
    memoId := memoId,
    storedHash := storedHash }

/-! ### Sync-state classifier (codemirror-extension.ts, findContentBlockEnd) -/

inductive SyncStatus where
  | notSynced
  | synced
  | needsResync
deriving DecidableEq, Repr

/-- Result of `findContentBlockEnd`: end line, memo presence, status and the
current content hash (0-indexed lines; the source converts to CodeMirror's
1-indexing at its boundary). -/
structure BlockEndResult where
  endLine : Nat
  hasExistingMemo : Bool
  syncStatus : SyncStatus
  contentHash : Str
deriving DecidableEq, Repr

/-- `findContentBlockEnd` from codemirror-extension.ts: run the shared
detector, hash the joined cleaned block, then classify. -/
def findContentBlockEnd (doc : List Str) (startLineNum : Nat) : BlockEndResult :=
  let result := detectContentBlock doc startLineNum
  let blockContent := joinNL result.contentLines
  let contentHash := simpleHash (trimJS blockContent)
  let syncStatus : SyncStatus :=
    if !result.hasExistingMemo then .notSynced
    else
      match result.storedHash with
      | none => .needsResync
      | some storedHash =>
        if storedHash = contentHash then .synced else .needsResync
  { endLine := result.endLine,
    hasExistingMemo := result.hasExistingMemo,
    syncStatus := syncStatus,
    contentHash := contentHash }

/-- Modelled from the spec (§4.4): the four ordered classification rules.
`classify(hasAnnotation, memoId, storedHash, currentHash)`:
no annotation / no memo-id → not-synced; memo-id but no stored hash →
needs-resync; stored hash equals current hash → synced; otherwise →
needs-resync.  Stated separately from `findContentBlockEnd` so the code's
classifier can be compared against the spec's rules. -/
def classifySpec (hasAnn : Bool) (memoId storedHash : Option Str) (currentHash : Str) :
    SyncStatus :=
  if !hasAnn || memoId.isNone then .notSynced
  else
    match storedHash with
    | none => .needsResync
    | some sh => if sh = currentHash then .synced else .needsResync

/-! ### ContentProcessor.getContentBlock (src/utils/content-processor.ts) -/

/-- The content-block record used by the memo manager: cleaned lines joined
with newlines (`memoId || null` becomes the `Option`). -/
structure ContentBlock where
  content : Str
  endLine : Nat
  hasExistingMemo : Bool
  memoId : Option Str
deriving DecidableEq, Repr

def getContentBlock (doc : List Str) (startLineNumber : Nat) : ContentBlock :=
  let result := detectContentBlock doc startLineNumber
  { content := joinNL result.contentLines,
    endLine := result.endLine,
    hasExistingMemo := result.hasExistingMemo,
    memoId := result.memoId }

/-! ### Status-bar memo counter (main.ts, DexContactsPlugin.countMemos) -/

/-- The inline Dex-URL link test of `countMemos`
(`/\[([^\]]*)\]\(https:\/\/getdex\.com\/appv3\/contacts\/details\/([^)]+)\)/`,
case-sensitive). -/
def matchAnyDexUrlAt (s : Str) : Option Unit :=
  match s with
  | '[' :: r =>
    let d := spanP (fun c => !(c = ']')) r
    match d.2 with
    | ']' :: '(' :: r2 =>
      match stripLit urlLit r2 with
      | some r3 =>
        let v := spanP (fun c => !(c = ')')) r3
        if v.1.isEmpty then none
        else
          match v.2 with
          | ')' :: _ => some ()
          | _ => none
      | none => none
    | _ => none
  | _ => none

/-- The inline vault-link test of `countMemos`
(`/\[\[([^\]|]+)(?:\|([^\]]+))?\]\]/`). -/
def matchAnyVaultAt (s : Str) : Option Unit :=
  match s with
  | '[' :: '[' :: r =>
    let d := spanP (fun c => !(c = ']' || c = '|')) r
    if d.1.isEmpty then none
    else
      match d.2 with
      | '|' :: r2 =>
        let e := spanP (fun c => !(c = ']')) r2
        if e.1.isEmpty then none
        else
          match e.2 with
          | ']' :: ']' :: _ => some ()
          | _ => none
      | ']' :: ']' :: _ => some ()
      | _ => none
  | _ => none

def hasDexUrlLink (line : Str) : Bool := (scanFirst matchAnyDexUrlAt line).isSome

def hasVaultLink (line : Str) : Bool := (scanFirst matchAnyVaultAt line).isSome

/-- The loop body of `countMemos`: scan lines, and for each tracked line
(a Dex comment plus a link) count the block, marking it synced when the
stored hash is empty or equals the current hash; then jump past the block.
`fuel ≥ doc.length` suffices since `i` strictly increases. -/
def countMemosGo (doc : List Str) : Nat → Nat → Nat × Nat
  | 0, _ => (0, 0)
  | fuel + 1, i =>
    if i < doc.length then
      let line := getLineD doc i
      let hasDexComment := (memoIdMatch line).isSome
      if hasDexComment && (hasDexUrlLink line || hasVaultLink line) then
        let contentBlock := getContentBlock doc i
        let syncedInc : Nat :=
          if contentBlock.hasExistingMemo then
            match memoIdMatch (getLineD doc i) with
            | some g =>
              -- `const storedHash = memoMatch[3] || '';`
              let storedHash := g.2.2.getD []
              let contentForHash := trimJS (cleanupDex contentBlock.content)
              let currentHash := simpleHash contentForHash
              -- `if (!storedHash || storedHash === currentHash) syncedCount++;`
              if storedHash.isEmpty || storedHash = currentHash then 1 else 0
            | none => 0
          else 0
        let r := countMemosGo doc fuel (contentBlock.endLine + 1)
        (r.1 + syncedInc, r.2 + 1)
      else countMemosGo doc fuel (i + 1)
    else (0, 0)

/-- `countMemos` from main.ts: `(syncedCount, totalCount)` over a document. -/
def countMemos (doc : List Str) : Nat × Nat :=
  countMemosGo doc doc.length 0

/-! ### Sync orchestrator (MemoManager.syncContactMemo)

The remote Dex API is a function argument.  Template rendering
(`memoTemplate`, date formatting, the markdown→HTML conversion of the block
content) only shapes the memo body sent to the remote service; it does not
influence the branch taken, the rewritten line or the returned id, so the
payload is omitted from `RemoteCall`.  Notifications and logging are
likewise omitted. -/

/-- A remote call issued by the orchestrator: `updateNote(memoId, contactId, …)`
or `createNote(contactId, …)`. -/
inductive RemoteCall where
  | update (memoId : Str) (contactId : Str)
  | create (contactId : Str)
deriving DecidableEq, Repr

/-- The result record of `createNote`/`updateNote` (`{id, wasUpdated}`). -/
structure NoteResult where
  id : Str
  wasUpdated : Bool
deriving DecidableEq, Repr

/-- Answer of the remote service: a thrown error or a note result. -/
inductive RemoteAnswer where
  | fail (e : Str)
  | ok (res : NoteResult)
deriving DecidableEq, Repr

/-- Outcome of `syncContactMemo`: a propagated error or the memo id. -/
inductive SyncResult where
  | err (e : Str)
  | ok (memoId : Str)
deriving DecidableEq, Repr

/-- `'memo_'`: the local-fallback memo-id marker tested by
`existingMemoId.startsWith('memo_')`. -/
def fallbackMarker : Str := ("memo_").toList

/-- The content-unchanged short-circuit at the top of `syncContactMemo`:
when the block has an existing memo id and the *end* line of the block
carries a `data-hash="…"` token equal to the current content hash, the
stored memo id is returned without any remote call. -/
def syncShortCircuit (doc : List Str) (lineNumber : Nat) : Option Str :=
  let contentBlock := getContentBlock doc lineNumber
  match contentBlock.memoId with
  | some existingMemoId =>
    if contentBlock.hasExistingMemo then
      let lastLine := getLineD doc contentBlock.endLine
      match dataHashMatch lastLine with
      | some storedHash =>
        let contentForHash := trimJS (cleanupDex contentBlock.content)
        let currentHash := simpleHash contentForHash
        if !storedHash.isEmpty && storedHash = currentHash then some existingMemoId
        else none
      | none => none
    else none
  | none => none

/-- The create-vs-update decision of `syncContactMemo`:
`if (existingMemoId && !isFakeMemoId) update else create`. -/
def syncCallKind (doc : List Str) (cid : Str) (lineNumber : Nat) : RemoteCall :=
  let contentBlock := getContentBlock doc lineNumber
  match contentBlock.memoId with
  | some existingMemoId =>
    if strStarts fallbackMarker existingMemoId then .create cid
    else .update existingMemoId cid
  | none => .create cid

/-- The post-call annotation rewrite of `syncContactMemo`: compute the new
content hash over the stripped block content, rewrite the start line, and
write it back only when it changed (`editor.setLine` guarded by
`updatedLine !== startLine`). -/
def applyAnnRewrite (cid newId : Str) (doc : List Str) (lineNumber : Nat) : List Str :=
  let contentBlock := getContentBlock doc lineNumber
  let contentForHash := trimJS (cleanupDex contentBlock.content)
  let contentHash := simpleHash contentForHash
  let startLine := getLineD doc lineNumber
  let updatedLine := rewriteStartLine cid newId contentHash startLine
  if updatedLine = startLine then doc else doc.set lineNumber updatedLine

/-- `MemoManager.syncContactMemo`, over a document and a remote service.
Returns the outcome together with the final document (the editor state):
short-circuit returns the stored id with no remote interaction; a remote
failure propagates with the document untouched; a remote success rewrites
the start line's annotation and returns the remote id. -/
def syncContactMemo (remote : RemoteCall → RemoteAnswer) (cid : Str)
    (doc : List Str) (lineNumber : Nat) : SyncResult × List Str :=
  match syncShortCircuit doc lineNumber with
  | some existingMemoId => (.ok existingMemoId, doc)
  | none =>
    match remote (syncCallKind doc cid lineNumber) with
    | .fail e => (.err e, doc)
    | .ok result => (.ok result.id, applyAnnRewrite cid result.id doc lineNumber)

/-! ### Basic lemmas about the string primitives -/

theorem stripLit_self (p r : Str) : stripLit p (p ++ r) = some r := by
  induction p with
  | nil => rfl
  | cons c cs ih => simp [stripLit, ih]

theorem stripLit_sublist {p s r : Str} (h : stripLit p s = some r) : r.Sublist s := by
  induction p generalizing s with
  | nil => simp [stripLit] at h; simp [h]
  | cons c cs ih =>
    cases s with
    | nil => simp [stripLit] at h
    | cons d ds =>
      by_cases hc : c = d
      · simp [stripLit, hc] at h
        exact List.Sublist.cons d (ih h)
      · simp [stripLit, hc] at h

theorem ciStrip_self (p r : Str) : ciStrip p (p ++ r) = some (p, r) := by
  induction p with
  | nil => rfl
  | cons c cs ih => simp [ciStrip, ih, Option.map]

theorem ciStrip_sublist {p s : Str} {x : Str × Str} (h : ciStrip p s = some x) :
    x.2.Sublist s := by
  induction p generalizing s x with
  | nil => simp [ciStrip] at h; simp [← h]
  | cons c cs ih =>
    cases s with
    | nil => simp [ciStrip] at h
    | cons d ds =>
      by_cases hc : lowerC c = lowerC d
      · simp [ciStrip, hc] at h
        obtain ⟨a, b, hab, hx⟩ := h
        have := ih hab
        rw [← hx]
        exact List.Sublist.cons d this
      · simp [ciStrip, hc] at h

theorem spanP_sublist (p : Char → Bool) (s : Str) : (spanP p s).2.Sublist s := by
  induction s with
  | nil => simp [spanP]
  | cons c cs ih =>
    by_cases hc : p c
    · simpa [spanP, hc] using List.Sublist.cons c ih
    · simp [spanP, hc]

/-- `spanP` over a run of satisfying characters followed by a stopper. -/
theorem spanP_append_all {p : Char → Bool} {a : Str} (ha : ∀ c ∈ a, p c = true) (b : Str) :
    spanP p (a ++ b) = (a ++ (spanP p b).1, (spanP p b).2) := by
  induction a with
  | nil => simp
  | cons c cs ih =>
    have hc : p c = true := ha c (by simp)
    have ih' := ih (fun d hd => ha d (by simp [hd]))
    simp [spanP, hc, ih']

theorem spanP_all {p : Char → Bool} {a : Str} (ha : ∀ c ∈ a, p c = true) :
    spanP p a = (a, []) := by
  have := spanP_append_all ha ([] : Str)
  simpa [spanP] using this

theorem spanP_stop {p : Char → Bool} {a : Str} {d : Char} (ha : ∀ c ∈ a, p c = true)
    (hd : p d = false) (t : Str) : spanP p (a ++ d :: t) = (a, d :: t) := by
  rw [spanP_append_all ha]
  simp [spanP, hd]

theorem trimLeftJS_append_all {w : Str} (hw : ∀ c ∈ w, isJsWS c = true) (s : Str) :
    trimLeftJS (w ++ s) = trimLeftJS s := by
  induction w with
  | nil => simp
  | cons c cs ih =>
    have hc := hw c (by simp)
    simp [trimLeftJS, hc, ih (fun d hd => hw d (by simp [hd]))]

theorem trimLeftJS_of_head {c : Char} (hc : isJsWS c = false) (s : Str) :
    trimLeftJS (c :: s) = c :: s := by
  simp [trimLeftJS, hc]

theorem trimLeftJS_suffix (s : Str) : (trimLeftJS s).IsSuffix s := by
  induction s with
  | nil => simp [trimLeftJS]
  | cons c cs ih =>
    by_cases hc : isJsWS c
    · simp only [trimLeftJS, hc, if_pos]
      exact ih.trans (List.suffix_cons c cs)
    · simp [trimLeftJS, hc]

theorem mem_of_mem_trimLeftJS {c : Char} {s : Str} (h : c ∈ trimLeftJS s) : c ∈ s :=
  (trimLeftJS_suffix s).subset h

theorem mem_of_mem_trimJS {c : Char} {s : Str} (h : c ∈ trimJS s) : c ∈ s := by
  unfold trimJS at h
  have h1 : c ∈ (trimLeftJS s.reverse).reverse := mem_of_mem_trimLeftJS h
  rw [List.mem_reverse] at h1
  have h2 := mem_of_mem_trimLeftJS h1
  rwa [List.mem_reverse] at h2

/-- `trim` of text followed by trailing whitespace. -/
theorem trimJS_append_ws {w : Str} (hw : ∀ c ∈ w, isJsWS c = true) (s : Str) :
    trimJS (s ++ w) = trimJS s := by
  unfold trimJS
  rw [List.reverse_append, trimLeftJS_append_all (fun c hc => hw c (List.mem_reverse.mp hc))]

/-- The head of a trimmed-left string is not whitespace. -/
theorem trimLeftJS_head : trimLeftJS s = [] ∨
    ∃ c t, trimLeftJS s = c :: t ∧ isJsWS c = false := by
  induction s with
  | nil => left; rfl
  | cons c cs ih =>
    by_cases hc : isJsWS c
    · simpa [trimLeftJS, hc] using ih
    · right; exact ⟨c, cs, by simp [trimLeftJS, hc], by simpa using hc⟩

theorem trimLeftJS_idem (s : Str) : trimLeftJS (trimLeftJS s) = trimLeftJS s := by
  rcases trimLeftJS_head (s := s) with h | ⟨c, t, h, hc⟩
  · simp [h, trimLeftJS]
  · rw [h, trimLeftJS_of_head hc]

theorem trimJS_idem (s : Str) : trimJS (trimJS s) = trimJS s := by
  unfold trimJS
  set u := (trimLeftJS s.reverse).reverse with hu
  -- the last character of `trimLeftJS u` is the head of `trimLeftJS s.reverse`, not WS
  have hrev : trimLeftJS (trimLeftJS u).reverse = (trimLeftJS u).reverse := by
    rcases trimLeftJS_head (s := u) with h | ⟨c, t, h, hc⟩
    · simp [h, trimLeftJS]
    · -- `trimLeftJS u` is a suffix of `u`; a nonempty suffix shares `u`'s last char
      have hsuf : (trimLeftJS u).IsSuffix u := trimLeftJS_suffix u
      obtain ⟨w, hw⟩ := hsuf
      rcases trimLeftJS_head (s := s.reverse) with h0 | ⟨c0, t0, h0, hc0⟩
      · have : u = [] := by simp [hu, h0]
        simp [this, trimLeftJS] at h
      · -- u.reverse = trimLeftJS s.reverse = c0 :: t0 with c0 non-WS
        have hur : u.reverse = c0 :: t0 := by simp [hu, h0]
        -- (trimLeftJS u).reverse = (c0 :: t0) take-away w.reverse; its head is c0
        have : (trimLeftJS u).reverse ++ w.reverse = c0 :: t0 := by
          rw [← List.reverse_append, hw, hur]
        cases htu : (trimLeftJS u).reverse with
        | nil => simp [trimLeftJS]
        | cons d ds =>
          rw [htu] at this
          have hd : d = c0 := by
            have h2 := congrArg (fun l : List Char => l.head?) this
            simpa using h2
          rw [trimLeftJS_of_head (by rw [hd]; exact hc0)]
  rw [hrev, List.reverse_reverse, trimLeftJS_idem]

/-! ### Lemmas about leftmost-match scanning -/

theorem scanFirst_cons_none {m : Str → Option α} {c : Char} {cs : Str}
    (h : m (c :: cs) = none) :
    scanFirst m (c :: cs) = (scanFirst m cs).map (fun pa => (c :: pa.1, pa.2)) := by
  simp [scanFirst, h]

theorem scanFirst_cons_some {m : Str → Option α} {c : Char} {cs : Str} {a : α}
    (h : m (c :: cs) = some a) : scanFirst m (c :: cs) = some ([], a) := by
  simp [scanFirst, h]

/-- A match at the very start wins the scan. -/
theorem scanFirst_of_match {m : Str → Option α} {s : Str} {a : α}
    (h : m s = some a) : scanFirst m s = some ([], a) := by
  cases s with
  | nil => simp [scanFirst, h]
  | cons c cs => simp [scanFirst, h]

/-- If every successful match starts with `key` and `key` does not occur in
`s`, the scan fails. -/
theorem scanFirst_none_of_key {m : Str → Option α} {key : Char}
    (hm : ∀ t a, m t = some a → key ∈ t) {s : Str} (hs : key ∉ s) :
    scanFirst m s = none := by
  induction s with
  | nil =>
    cases h : m [] with
    | none => simp [scanFirst, h]
    | some a => exact absurd (hm [] a h) (by simp)
  | cons c cs ih =>
    have h1 : m (c :: cs) = none := by
      cases h : m (c :: cs) with
      | none => rfl
      | some a => exact absurd (hm _ a h) hs
    rw [scanFirst_cons_none h1, ih (fun hmem => hs (by simp [hmem]))]
    rfl

/-- Skip a prefix free of the matchers' mandatory first character. -/
theorem scanFirst_skip_key {m : Str → Option α} {key : Char}
    (hm : ∀ t a, m t = some a → ∃ t', t = key :: t') {p : Str} (hp : key ∉ p) (s : Str) :
    scanFirst m (p ++ s) = (scanFirst m s).map (fun pa => (p ++ pa.1, pa.2)) := by
  induction p with
  | nil =>
    simp only [List.nil_append]
    cases h : scanFirst m s <;> simp
  | cons c cs ih =>
    have hc : c ≠ key := fun h => hp (by simp [h])
    have h1 : m (c :: (cs ++ s)) = none := by
      cases h : m (c :: (cs ++ s)) with
      | none => rfl
      | some a =>
        obtain ⟨t', ht⟩ := hm _ a h
        have hck : c = key := by simpa using congrArg List.head? ht
        exact absurd hck hc
    have ih' := ih (fun hmem => hp (by simp [hmem]))
    rw [List.cons_append, scanFirst_cons_none h1, ih']
    cases h : scanFirst m s <;> simp [h]

/-! ### Lemmas about the annotation cleanup -/

theorem tryDexCleanupAt_head {s r : Str} (h : tryDexCleanupAt s = some r) :
    ∃ t, s = '%' :: t := by
  unfold tryDexCleanupAt at h
  cases s with
  | nil => simp [stripLit] at h
  | cons c cs =>
    by_cases hc : ('%') = c
    · exact ⟨cs, by rw [← hc]⟩
    · simp [stripLit, hc] at h

theorem tryDexCleanupAt_shrink {s r : Str} (h : tryDexCleanupAt s = some r) :
    r.length < s.length := by
  unfold tryDexCleanupAt at h
  cases h1 : stripLit (("%%dex:").toList) s with
  | none => rw [h1] at h; simp at h
  | some r1 =>
    rw [h1] at h
    simp only [] at h
    have hsub1 : r1.Sublist s := stripLit_sublist h1
    have hsub2 : (spanP (fun c => !(c = '%')) r1).2.Sublist r1 := spanP_sublist _ _
    cases h2 : (spanP (fun c => !(c = '%')) r1).2 with
    | nil => rw [h2] at h; simp [closeAnn, stripLit] at h
    | cons d ds =>
      rw [h2] at h
      unfold closeAnn at h
      have hsub3 : r.Sublist (d :: ds) := stripLit_sublist h
      have hlen3 : r.length ≤ ds.length + 1 := by simpa using hsub3.length_le
      have hlen2 : ds.length + 1 ≤ r1.length := by
        have := hsub2.length_le; rw [h2] at this; simpa using this
      have hlen1 : r1.length ≤ s.length := hsub1.length_le
      -- the stripped literal has positive length, so r1 is strictly shorter than s
      have hstrict : r1.length < s.length := by
        have hlit : (("%%dex:").toList).length + r1.length = s.length := by
          clear h h2 hsub2 hsub3 hlen3 hlen2 hlen1 hsub1
          generalize ("%%dex:").toList = p at h1
          induction p generalizing s with
          | nil => simp [stripLit] at h1; simp [h1]
          | cons q qs ih =>
            cases s with
            | nil => simp [stripLit] at h1
            | cons e es =>
              by_cases hq : q = e
              · simp [stripLit, hq] at h1
                have := ih h1
                simp [← this]; omega
              · simp [stripLit, hq] at h1
        simp at hlit; omega
      -- and the closing `%%` makes r strictly shorter than d :: ds as well
      have : r.length < ds.length + 1 := by
        cases hds : ds with
        | nil =>
          rw [hds] at h
          by_cases hd : ('%') = d
          · simp [closeAnn, stripLit, ← hd] at h
          · simp [closeAnn, stripLit, hd] at h
        | cons e es =>
          rw [hds] at h
          by_cases hd : ('%') = d
          · by_cases he : ('%') = e
            · simp [stripLit, hd.symm, he.symm] at h
              rw [← h]; simp [hds]; omega
            · simp [stripLit, hd, he] at h
          · simp [stripLit, hd] at h
      omega

theorem cleanupDexGo_noPct {s : Str} (hs : ('%') ∉ s) (fuel : Nat) :
    cleanupDexGo fuel s = s := by
  induction fuel generalizing s with
  | zero => rfl
  | succ fuel ih =>
    cases s with
    | nil => rfl
    | cons c cs =>
      have h1 : tryDexCleanupAt (c :: cs) = none := by
        cases h : tryDexCleanupAt (c :: cs) with
        | none => rfl
        | some r =>
          obtain ⟨t, ht⟩ := tryDexCleanupAt_head h
          injection ht with h1 _
          exact absurd (by simp [h1]) hs
      simp only [cleanupDexGo, h1]
      rw [ih (fun hmem => hs (by simp [hmem]))]

theorem cleanupDexGo_stable : ∀ (f₁ : Nat) (s : Str) (f₂ : Nat),
    s.length ≤ f₁ → s.length ≤ f₂ → cleanupDexGo f₁ s = cleanupDexGo f₂ s := by
  intro f₁
  induction f₁ with
  | zero =>
    intro s f₂ h1 h2
    have hs : s = [] := List.eq_nil_of_length_eq_zero (Nat.le_zero.mp h1)
    subst hs
    cases f₂ <;> rfl
  | succ f ih =>
    intro s f₂ h1 h2
    cases s with
    | nil => cases f₂ <;> rfl
    | cons c cs =>
      cases f₂ with
      | zero => simp at h2
      | succ g =>
        cases h : tryDexCleanupAt (c :: cs) with
        | some rest =>
          have hlt := tryDexCleanupAt_shrink h
          simp only [cleanupDexGo, h]
          exact ih rest g (by simp at h1 hlt ⊢; omega) (by simp at h2 hlt ⊢; omega)
        | none =>
          simp only [cleanupDexGo, h]
          rw [ih cs g (by simpa using h1) (by simpa using h2)]

/-- Stripping annotations from a text containing one explicit annotation. -/
theorem cleanupDex_split {a body : Str} (ha : ('%') ∉ a) (hb : ('%') ∉ body) (b : Str) :
    cleanupDex (a ++ (("%%dex:").toList ++ (body ++ ((("%%").toList) ++ b)))) =
      a ++ cleanupDex b := by
  induction a with
  | cons c cs ih =>
    have hc : ('%') ≠ c := fun h => ha (by simp [← h])
    have h1 : tryDexCleanupAt
        (c :: (cs ++ (("%%dex:").toList ++ (body ++ ((("%%").toList) ++ b))))) = none := by
      cases h : tryDexCleanupAt
          (c :: (cs ++ (("%%dex:").toList ++ (body ++ ((("%%").toList) ++ b))))) with
      | none => rfl
      | some r =>
        obtain ⟨t, ht⟩ := tryDexCleanupAt_head h
        have h2 : c = '%' := by simpa using congrArg List.head? ht
        exact absurd h2.symm hc
    have ih' := ih (fun hmem => ha (by simp [hmem]))
    unfold cleanupDex at ih' ⊢
    simp only [List.cons_append, List.length_cons, cleanupDexGo, h1]
    simp only [List.append_eq]
    rw [ih']
  | nil =>
    simp only [List.nil_append]
    have hmatch : tryDexCleanupAt (("%%dex:").toList ++ (body ++ ((("%%").toList) ++ b))) =
        some b := by
      unfold tryDexCleanupAt
      rw [stripLit_self]
      show closeAnn (spanP (fun c => !(c = '%')) (body ++ ((("%%").toList) ++ b))).2 = some b
      have h8 : (("%%").toList) ++ b = ('%') :: (('%') :: b) := rfl
      have hspan : spanP (fun c => !(c = '%')) (body ++ ((("%%").toList) ++ b)) =
          (body, ('%') :: (('%') :: b)) := by
        rw [h8]
        exact spanP_stop
          (fun c hc => by simp only [Bool.not_eq_true', decide_eq_false_iff_not]
                          exact fun h => hb (h ▸ hc))
          (by simp) _
      rw [hspan]
      simp [closeAnn, stripLit]
    have hTlen : (("%%dex:").toList ++ (body ++ ((("%%").toList) ++ b))).length =
        b.length + body.length + 8 := by simp; omega
    unfold cleanupDex
    cases hTc : ("%%dex:").toList ++ (body ++ ((("%%").toList) ++ b)) with
    | nil => rw [hTc] at hTlen; simp at hTlen
    | cons c cs =>
      rw [hTc] at hmatch hTlen
      simp only [List.length_cons, cleanupDexGo, hmatch]
      exact cleanupDexGo_stable cs.length b b.length (by simp at hTlen; omega) (by rfl)

theorem cleanupDex_noPct {s : Str} (hs : ('%') ∉ s) : cleanupDex s = s :=
  cleanupDexGo_noPct hs s.length

/-! ### Lemmas about the annotation parser -/

/-- A usable annotation field value: nonempty and free of the three
delimiter characters excluded by the pattern's `[^,%)]` class. -/
def fieldOK (v : Str) : Bool :=
  !v.isEmpty && v.all (fun c => !(c = ',' || c = '%' || c = ')'))

def fieldOKo : Option Str → Bool
  | some v => fieldOK v
  | none => true

/-- Modelled from the spec's wire format (§6): an annotation carrying any
subset of the three fields in the fixed written order, each non-first
present field keeping its leading comma. -/
def annOf (oc om oh : Option Str) : Str :=
  ("%%dex:").toList ++
    ((match oc with | some c => ("contact-id=").toList ++ c | none => []) ++
     ((match om with | some m => ((",memo-id=").toList) ++ m | none => []) ++
      ((match oh with | some h => ((",hash=").toList) ++ h | none => []) ++ ("%%").toList)))

/-- The text after the contact-id group of an annotation-plus-rest. -/
def annTail3 (oh : Option Str) (rest : Str) : Str :=
  (match oh with | some h => ((",hash=").toList) ++ h | none => []) ++
    (("%%").toList ++ rest)

def annTail2 (om oh : Option Str) (rest : Str) : Str :=
  (match om with | some m => ((",memo-id=").toList) ++ m | none => []) ++ annTail3 oh rest

theorem annOf_decomp (oc om oh : Option Str) (rest : Str) :
    annOf oc om oh ++ rest =
      ("%%dex:").toList ++
        ((match oc with | some c => ("contact-id=").toList ++ c | none => []) ++
          annTail2 om oh rest) := by
  unfold annOf annTail2 annTail3
  cases oc <;> cases om <;> cases oh <;> simp

theorem fieldOK_ne {v : Str} (hv : fieldOK v = true) :
    ∀ c ∈ v, (!(c = ',' || c = '%' || c = ')')) = true := by
  unfold fieldOK at hv
  simp only [Bool.and_eq_true, List.all_eq_true] at hv
  intro c hc
  exact hv.2 c hc

theorem fieldOK_nonempty {v : Str} (hv : fieldOK v = true) : v ≠ [] := by
  unfold fieldOK at hv
  simp only [Bool.and_eq_true] at hv
  simpa using hv.1

theorem fieldRun_eq {v : Str} (hv : fieldOK v = true) {d : Char}
    (hd : (!(d = ',' || d = '%' || d = ')')) = false) (t : Str) :
    fieldRun (v ++ d :: t) = some (v, d :: t) := by
  unfold fieldRun
  rw [spanP_stop (fieldOK_ne hv) hd]
  simp [fieldOK_nonempty hv]

/-- Head of the annotation tail after a field value: `,` or `%`. -/
theorem annTail3_head (oh : Option Str) (rest : Str) :
    ∃ d t, annTail3 oh rest = d :: t ∧ (!(d = ',' || d = '%' || d = ')')) = false := by
  cases oh with
  | some h =>
    refine ⟨',', ("hash=").toList ++ (h ++ ((("%%").toList) ++ rest)), ?_, by decide⟩
    rfl
  | none => exact ⟨'%', ("%").toList ++ rest, rfl, by decide⟩

theorem annTail2_head (om oh : Option Str) (rest : Str) :
    ∃ d t, annTail2 om oh rest = d :: t ∧ (!(d = ',' || d = '%' || d = ')')) = false := by
  cases om with
  | some m =>
    refine ⟨',', ("memo-id=").toList ++ (m ++ annTail3 oh rest), ?_, by decide⟩
    rfl
  | none =>
    obtain ⟨d, t, h1, h2⟩ := annTail3_head oh rest
    exact ⟨d, t, by unfold annTail2; simpa using h1, h2⟩

/-- Stage 3: the hash group and closing `%%`. -/
theorem memoGroupsG3_annTail (g1 g2 : Option Str) (oh : Option Str)
    (hh : fieldOKo oh = true) (rest : Str) :
    memoGroupsG3 g1 g2 (annTail3 oh rest) = some ((g1, g2, oh), rest) := by
  cases oh with
  | none => rfl
  | some h =>
    have hfr : fieldRun (h ++ ('%') :: (('%') :: rest)) = some (h, ('%') :: (('%') :: rest)) :=
      fieldRun_eq hh (by decide) _
    have htry : tryG3 (annTail3 (some h) rest) = some (h, ('%') :: (('%') :: rest)) := by
      unfold tryG3
      show (stripLit ((",hash=").toList)
        ((",hash=").toList ++ (h ++ (('%') :: (('%') :: rest))))).bind fieldRun = _
      rw [stripLit_self]
      simpa using hfr
    unfold memoGroupsG3
    simp only [htry]
    rfl

/-- Stage 2: the memo-id group, then stage 3. -/
theorem memoGroupsTail_annTail (g1 : Option Str) (om oh : Option Str)
    (hm : fieldOKo om = true) (hh : fieldOKo oh = true) (rest : Str) :
    memoGroupsTail g1 (annTail2 om oh rest) = some ((g1, om, oh), rest) := by
  cases om with
  | none =>
    have htry : tryG2 (annTail2 none oh rest) = none := by
      unfold annTail2 annTail3
      cases oh <;> rfl
    unfold memoGroupsTail
    simp only [htry]
    have h3 : annTail2 none oh rest = annTail3 oh rest := by unfold annTail2; simp
    rw [h3]
    exact memoGroupsG3_annTail g1 none oh hh rest
  | some m =>
    obtain ⟨d, t, h3, hd⟩ := annTail3_head oh rest
    have htry : tryG2 (annTail2 (some m) oh rest) = some (m, annTail3 oh rest) := by
      unfold tryG2
      show (stripLit ((",memo-id=").toList)
        ((",memo-id=").toList ++ (m ++ annTail3 oh rest))).bind fieldRun = _
      rw [stripLit_self]
      show fieldRun (m ++ annTail3 oh rest) = _
      rw [h3]
      exact fieldRun_eq hm hd t
    unfold memoGroupsTail
    simp only [htry]
    rw [memoGroupsG3_annTail g1 (some m) oh hh rest]

/-- The eight-case structured-annotation parse: `MEMO_ID_PATTERN` matched at
an annotation written with any subset of fields recovers exactly those
fields. -/
theorem memoIdMatchAt_subset (oc om oh : Option Str)
    (hc : fieldOKo oc = true) (hm : fieldOKo om = true) (hh : fieldOKo oh = true)
    (rest : Str) :
    memoIdMatchAt (annOf oc om oh ++ rest) = some ((oc, om, oh), rest) := by
  rw [annOf_decomp]
  unfold memoIdMatchAt
  rw [stripLit_self]
  cases oc with
  | none =>
    have htry : tryG1 (annTail2 om oh rest) = none := by
      unfold annTail2 annTail3
      cases om <;> cases oh <;> rfl
    simp only [List.nil_append, htry]
    exact memoGroupsTail_annTail none om oh hm hh rest
  | some c =>
    have htry : tryG1 ((("contact-id=").toList ++ c) ++ annTail2 om oh rest) =
        some (c, annTail2 om oh rest) := by
      unfold tryG1
      rw [List.append_assoc, stripLit_self]
      show fieldRun (c ++ annTail2 om oh rest) = _
      obtain ⟨d, t, h2, hd⟩ := annTail2_head om oh rest
      rw [h2]
      exact fieldRun_eq hc hd t
    simp only [htry]
    rw [memoGroupsTail_annTail (some c) om oh hm hh rest]

theorem memoIdMatchAt_head {s : Str} {a : MemoGroups × Str} (h : memoIdMatchAt s = some a) :
    ∃ t, s = '%' :: t := by
  unfold memoIdMatchAt at h
  cases s with
  | nil => simp [stripLit] at h
  | cons c cs =>
    by_cases hc : ('%') = c
    · exact ⟨cs, by rw [← hc]⟩
    · rw [show stripLit (("%%dex:").toList) (c :: cs) = none by simp [stripLit, hc]] at h
      simp at h

/-- The leftmost `MEMO_ID_PATTERN` match on a line made of a `%`-free prefix,
a structured annotation, and an arbitrary tail. -/
theorem memoIdMatch_structured {pre : Str} (hpre : ('%') ∉ pre)
    (oc om oh : Option Str)
    (hc : fieldOKo oc = true) (hm : fieldOKo om = true) (hh : fieldOKo oh = true)
    (post : Str) :
    memoIdMatch (pre ++ (annOf oc om oh ++ post)) = some (oc, om, oh) := by
  unfold memoIdMatch
  rw [scanFirst_skip_key (fun t a h => memoIdMatchAt_head h) hpre]
  rw [scanFirst_of_match (memoIdMatchAt_subset oc om oh hc hm hh post)]
  rfl

theorem memoIdMatch_noPct {s : Str} (hs : ('%') ∉ s) : memoIdMatch s = none := by
  unfold memoIdMatch
  rw [scanFirst_none_of_key (fun t a h => by
    obtain ⟨t', ht⟩ := memoIdMatchAt_head h
    simp [ht]) hs]
  rfl

/-! ### Character-class lemmas for the case-insensitive patterns -/

theorem uInt32Le_toNat {a b : UInt32} : a ≤ b ↔ a.toNat ≤ b.toNat := by
  rw [UInt32.le_def, BitVec.le_def]
  rfl

theorem charLe_toNat {a b : Char} : a ≤ b ↔ a.toNat ≤ b.toNat := by
  rw [Char.le_def]
  exact uInt32Le_toNat

theorem charToNat_inj {a b : Char} (h : a.toNat = b.toNat) : a = b :=
  Char.ext (UInt32.toNat.inj h)

theorem toNat_ofNat_valid {n : Nat} (h : n.isValidChar) : (Char.ofNat n).toNat = n := by
  unfold Char.ofNat
  rw [dif_pos h]
  unfold Char.ofNatAux Char.toNat
  show (BitVec.ofNatLt n _).toNat = n
  exact BitVec.toNat_ofNatLt n _

theorem lowerC_eq_self {c : Char} (h : ('A' ≤ c && c ≤ 'Z') = false) : lowerC c = c := by
  unfold lowerC
  rw [if_neg (by simp [h])]

theorem lowerC_upper {c : Char} (h : ('A' ≤ c && c ≤ 'Z') = true) :
    (lowerC c).toNat = c.toNat + 32 ∧ 65 ≤ c.toNat ∧ c.toNat ≤ 90 := by
  have h' := h
  simp only [Bool.and_eq_true, decide_eq_true_eq] at h'
  have h1 : 65 ≤ c.toNat := by
    have := charLe_toNat.mp h'.1
    simpa using this
  have h2 : c.toNat ≤ 90 := by
    have := charLe_toNat.mp h'.2
    simpa using this
  refine ⟨?_, h1, h2⟩
  unfold lowerC
  rw [if_pos h]
  exact toNat_ofNat_valid (Or.inl (by omega))

/-- Only `%` itself is lower-cased to `%`. -/
theorem lowerC_pct {c : Char} (h : lowerC c = '%') : c = '%' := by
  by_cases hc : ('A' ≤ c && c ≤ 'Z') = true
  · exfalso
    obtain ⟨he, h1, h2⟩ := lowerC_upper hc
    rw [h] at he
    have h37 : ('%').toNat = 37 := rfl
    omega
  · rwa [lowerC_eq_self (by simpa using hc)] at h

/-- A usable id value for the case-insensitive link patterns: nonempty,
over lower-case letters, digits, `-` and `_` (the alphabet of the plugin's
contact and memo ids). -/
def idOK (v : Str) : Bool :=
  !v.isEmpty && v.all (fun c => c.isLower || c.isDigit || c = '-' || c = '_')

theorem idChar_toNat {c : Char}
    (h : (c.isLower || c.isDigit || c = '-' || c = '_') = true) :
    (97 ≤ c.toNat ∧ c.toNat ≤ 122) ∨ (48 ≤ c.toNat ∧ c.toNat ≤ 57) ∨
      c.toNat = 45 ∨ c.toNat = 95 := by
  simp only [Bool.or_eq_true, decide_eq_true_eq] at h
  rcases h with ((hl | hd) | hm) | hu
  · left
    unfold Char.isLower at hl
    simp only [Bool.and_eq_true, decide_eq_true_eq] at hl
    exact ⟨by simpa using uInt32Le_toNat.mp hl.1, by simpa using uInt32Le_toNat.mp hl.2⟩
  · right; left
    unfold Char.isDigit at hd
    simp only [Bool.and_eq_true, decide_eq_true_eq] at hd
    exact ⟨by simpa using uInt32Le_toNat.mp hd.1, by simpa using uInt32Le_toNat.mp hd.2⟩
  · right; right; left; rw [hm]; rfl
  · right; right; right; rw [hu]; rfl

theorem idChar_lowerC_fixed {c : Char}
    (h : (c.isLower || c.isDigit || c = '-' || c = '_') = true) : lowerC c = c := by
  apply lowerC_eq_self
  by_contra hcontra
  have hup : ('A' ≤ c && c ≤ 'Z') = true := by
    cases h2 : ('A' ≤ c && c ≤ 'Z') <;> simp_all
  obtain ⟨_, h1, h2⟩ := lowerC_upper hup
  rcases idChar_toNat h with ⟨a, b⟩ | ⟨a, b⟩ | a | a <;> omega

theorem idOK_all {v : Str} (hv : idOK v = true) :
    ∀ c ∈ v, (c.isLower || c.isDigit || c = '-' || c = '_') = true := by
  intro c hc
  unfold idOK at hv
  simp only [Bool.and_eq_true, List.all_eq_true] at hv
  have := hv.2 c hc
  simpa using this

theorem idOK_nonempty {v : Str} (hv : idOK v = true) : v ≠ [] := by
  unfold idOK at hv
  simp only [Bool.and_eq_true] at hv
  simpa using hv.1

theorem ciStrip_cons_eq {p c : Char} {ps cs : Str} (h : lowerC p = lowerC c) :
    ciStrip (p :: ps) (c :: cs) = (ciStrip ps cs).map (fun r => (c :: r.1, r.2)) := by
  simp [ciStrip, h]

theorem ciStrip_cons_ne {p c : Char} {ps cs : Str} (h : lowerC p ≠ lowerC c) :
    ciStrip (p :: ps) (c :: cs) = none := by
  simp [ciStrip, h]

theorem idChar_ne_close {c : Char}
    (h : (c.isLower || c.isDigit || c = '-' || c = '_') = true) : c ≠ ')' := by
  intro hcontra
  rcases idChar_toNat h with ⟨x, y⟩ | ⟨x, y⟩ | x | x <;>
    · rw [hcontra] at x
      revert x
      decide

/-- Case-insensitively matching one id literal against a different id
followed by `)`: either no match, or the text continues with a non-`)`
character (so the pattern's following `\)` fails). -/
theorem ciStrip_id_cases {A B : Str}
    (hAall : ∀ c ∈ A, (c.isLower || c.isDigit || c = '-' || c = '_') = true)
    (hBall : ∀ c ∈ B, (c.isLower || c.isDigit || c = '-' || c = '_') = true)
    (hne : A ≠ B) (r : Str) :
    ciStrip A (B ++ (')') :: r) = none ∨
      ∃ x b bs, ciStrip A (B ++ (')') :: r) = some (x, b :: bs) ∧ b ≠ ')' := by
  induction A generalizing B with
  | nil =>
    cases B with
    | nil => exact absurd rfl hne
    | cons b bs =>
      right
      exact ⟨[], b, bs ++ (')') :: r, rfl, idChar_ne_close (hBall b (by simp))⟩
  | cons a as ih =>
    have ha := hAall a (by simp)
    cases B with
    | nil =>
      left
      show ciStrip (a :: as) ((')') :: r) = none
      apply ciStrip_cons_ne
      rw [idChar_lowerC_fixed ha, show lowerC (')') = ')' from rfl]
      exact idChar_ne_close ha
    | cons b bs =>
      have hb := hBall b (by simp)
      by_cases hab : a = b
      · subst hab
        have hne' : as ≠ bs := fun h => hne (by rw [h])
        have ih' := ih (fun c hc => hAall c (by simp [hc]))
          (fun c hc => hBall c (by simp [hc])) hne'
        rw [List.cons_append, ciStrip_cons_eq rfl]
        rcases ih' with h1 | ⟨x, c, cs, h1, hc⟩
        · left; rw [h1]; rfl
        · right
          exact ⟨a :: x, c, cs, by rw [h1]; rfl, hc⟩
      · left
        rw [List.cons_append]
        apply ciStrip_cons_ne
        rw [idChar_lowerC_fixed ha, idChar_lowerC_fixed hb]
        exact hab

/-! ### Lemmas about the rewrite-pattern matchers -/

/-- A Dex profile URL link `[disp](https://…/details/cid)` as written text. -/
def dexLink (disp cid : Str) : Str :=
  '[' :: (disp ++ (']' :: ('(' :: (urlLit ++ (cid ++ [')'])))))

/-- A vault link `[[inner]]` as written text. -/
def vaultLink (inner : Str) : Str :=
  '[' :: ('[' :: (inner ++ (("]]").toList)))

theorem dexLink_append (disp cid X : Str) :
    dexLink disp cid ++ X =
      '[' :: (disp ++ (']' :: ('(' :: (urlLit ++ (cid ++ (')' :: X)))))) := by
  simp [dexLink]

theorem vaultLink_append (inner X : Str) :
    vaultLink inner ++ X = '[' :: ('[' :: (inner ++ (']' :: (']' :: X)))) := by
  simp [vaultLink, show (("]]").toList) = [']', ']'] from rfl]

theorem matchDexUrlAt_head {cid s : Str} {p : MatchParts}
    (h : matchDexUrlAt cid s = some p) : ∃ t, s = '[' :: t := by
  unfold matchDexUrlAt at h
  split at h
  · next r => exact ⟨r, rfl⟩
  · simp at h

theorem matchDexUrlAt_hasParen {cid s : Str} {p : MatchParts}
    (h : matchDexUrlAt cid s = some p) : ('(') ∈ s := by
  unfold matchDexUrlAt at h
  split at h
  · next r =>
    dsimp only [] at h
    split at h
    · next r2 heq =>
      have hsub := spanP_sublist (fun c => !(c = ']')) r
      rw [heq] at hsub
      have hin : ('(') ∈ r := hsub.subset (by simp)
      simp [hin]
    · simp at h
  · simp at h

theorem matchVaultAt_head {s : Str} {p : MatchParts}
    (h : matchVaultAt s = some p) : ∃ t, s = '[' :: t := by
  unfold matchVaultAt at h
  split at h
  · next r => exact ⟨'[' :: r, rfl⟩
  · simp at h

theorem matchDexUrlWithCommentAt_head {cid s : Str} {p : MatchParts}
    (h : matchDexUrlWithCommentAt cid s = some p) : ∃ t, s = '[' :: t := by
  unfold matchDexUrlWithCommentAt at h
  split at h
  · next link heq => exact matchDexUrlAt_head heq
  · simp at h

theorem matchDexUrlWithCommentAt_hasParen {cid s : Str} {p : MatchParts}
    (h : matchDexUrlWithCommentAt cid s = some p) : ('(') ∈ s := by
  unfold matchDexUrlWithCommentAt at h
  split at h
  · next link heq => exact matchDexUrlAt_hasParen heq
  · simp at h

theorem matchVaultWithCommentAt_head {cid s : Str} {p : MatchParts}
    (h : matchVaultWithCommentAt cid s = some p) : ∃ t, s = '[' :: t := by
  unfold matchVaultWithCommentAt at h
  split at h
  · next link heq => exact matchVaultAt_head heq
  · simp at h

theorem ciStrip_pct_head {ps s : Str} {x : Str × Str}
    (h : ciStrip (('%') :: ps) s = some x) : ∃ t, s = '%' :: t := by
  cases s with
  | nil => simp [ciStrip] at h
  | cons c cs =>
    by_cases hc : lowerC ('%') = lowerC c
    · have hcp : c = '%' := lowerC_pct (by rw [← hc]; rfl)
      exact ⟨cs, by rw [hcp]⟩
    · rw [ciStrip_cons_ne hc] at h
      simp at h

theorem matchVaultAt_rest_sub {s : Str} {p : MatchParts} (h : matchVaultAt s = some p) :
    p.rest.Sublist s := by
  unfold matchVaultAt at h
  split at h
  · next r =>
    dsimp only [] at h
    split at h
    · simp at h
    · split at h
      · next r2 heq =>
        have hp : p.rest = r2 := by
          have := Option.some.inj h
          rw [← this]
        have h1 : r2.Sublist (spanP (fun c => !(c = ']')) r).2 := by
          rw [heq]
          exact (List.sublist_cons_self (']') r2).trans (List.sublist_cons_self (']') _)
        have h2 := spanP_sublist (fun c => !(c = ']')) r
        rw [hp]
        exact (h1.trans h2).trans ((List.sublist_cons_self _ _).trans (List.sublist_cons_self _ _))
      · simp at h
  · simp at h

theorem matchVaultWithCommentAt_hasPct {cid s : Str} {p : MatchParts}
    (h : matchVaultWithCommentAt cid s = some p) : ('%') ∈ s := by
  unfold matchVaultWithCommentAt at h
  split at h
  · next link heq =>
    dsimp only [] at h
    rw [show (("%%dex:contact-id=").toList) = ('%') :: (("%dex:contact-id=").toList) from rfl]
      at h
    split at h
    · next pr r4 heq2 =>
      obtain ⟨t, ht⟩ := ciStrip_pct_head heq2
      have h1 : ('%') ∈ (spanP isJsWS link.rest).2 := by rw [ht]; simp
      have h2 : ('%') ∈ link.rest := (spanP_sublist isJsWS link.rest).subset h1
      exact (matchVaultAt_rest_sub heq).subset h2
    · simp at h
  · simp at h

theorem spanP_ws_before_pct {w : Str} (hw : ∀ c ∈ w, isJsWS c = true) (t : Str) :
    spanP isJsWS (w ++ (('%') :: t)) = (w, ('%') :: t) :=
  spanP_stop hw (by decide) t

theorem spanP_ws_end {w rest : Str} (hw : ∀ c ∈ w, isJsWS c = true)
    (hrest : rest = [] ∨ ∃ d t, rest = d :: t ∧ isJsWS d = false) :
    spanP isJsWS (w ++ rest) = (w, rest) := by
  rcases hrest with h | ⟨d, t, h, hd⟩
  · subst h
    rw [spanP_append_all hw]
    simp [spanP]
  · subst h
    exact spanP_stop hw hd t

theorem matchVaultAt_structured {inner : Str} (hne : inner ≠ []) (hri : (']') ∉ inner)
    (rest : Str) :
    matchVaultAt (vaultLink inner ++ rest) = some ⟨vaultLink inner, [], rest⟩ := by
  rw [vaultLink_append]
  have hspan : spanP (fun c => !(c = ']')) (inner ++ (']' :: (']' :: rest))) =
      (inner, ']' :: (']' :: rest)) :=
    spanP_stop (fun c hc => by
      simp only [Bool.not_eq_true', decide_eq_false_iff_not]
      exact fun h => hri (h ▸ hc)) (by simp) _
  have hne' : inner.isEmpty = false := by simpa using hne
  simp only [matchVaultAt, hspan, hne', Bool.false_eq_true, if_false]
  simp [vaultLink]

theorem matchDexUrlAt_structured {disp : Str} (hrd : (']') ∉ disp) (cid rest : Str) :
    matchDexUrlAt cid (dexLink disp cid ++ rest) = some ⟨dexLink disp cid, [], rest⟩ := by
  rw [dexLink_append]
  have hspan : spanP (fun c => !(c = ']'))
      (disp ++ (']' :: ('(' :: (urlLit ++ (cid ++ (')' :: rest)))))) =
      (disp, ']' :: ('(' :: (urlLit ++ (cid ++ (')' :: rest))))) :=
    spanP_stop (fun c hc => by
      simp only [Bool.not_eq_true', decide_eq_false_iff_not]
      exact fun h => hrd (h ▸ hc)) (by simp) _
  simp only [matchDexUrlAt, hspan, ciStrip_self]
  simp [dexLink]

theorem matchDexUrlAt_fail_ne {dispB A B : Str} (hrd : (']') ∉ dispB)
    (hAall : ∀ c ∈ A, (c.isLower || c.isDigit || c = '-' || c = '_') = true)
    (hBall : ∀ c ∈ B, (c.isLower || c.isDigit || c = '-' || c = '_') = true)
    (hne : A ≠ B) (REST : Str) :
    matchDexUrlAt A (dexLink dispB B ++ REST) = none := by
  rw [dexLink_append]
  have hspan : spanP (fun c => !(c = ']'))
      (dispB ++ (']' :: ('(' :: (urlLit ++ (B ++ (')' :: REST)))))) =
      (dispB, ']' :: ('(' :: (urlLit ++ (B ++ (')' :: REST))))) :=
    spanP_stop (fun c hc => by
      simp only [Bool.not_eq_true', decide_eq_false_iff_not]
      exact fun h => hrd (h ▸ hc)) (by simp) _
  rcases ciStrip_id_cases hAall hBall hne REST with hnone | ⟨x, b, bs, hsome, hb⟩
  · simp only [matchDexUrlAt, hspan, ciStrip_self, hnone]
  · simp only [matchDexUrlAt, hspan, ciStrip_self, hsome]
    split
    · next r5 heq =>
      exact absurd (by simpa using congrArg List.head? heq) hb
    · rfl

theorem matchDexUrlWithCommentAt_fail_ne {dispB A B : Str} (hrd : (']') ∉ dispB)
    (hAall : ∀ c ∈ A, (c.isLower || c.isDigit || c = '-' || c = '_') = true)
    (hBall : ∀ c ∈ B, (c.isLower || c.isDigit || c = '-' || c = '_') = true)
    (hne : A ≠ B) (REST : Str) :
    matchDexUrlWithCommentAt A (dexLink dispB B ++ REST) = none := by
  unfold matchDexUrlWithCommentAt
  rw [matchDexUrlAt_fail_ne hrd hAall hBall hne REST]

theorem matchDexUrlWithCommentAt_structured {disp ws1 body ws2 rest : Str} (cid : Str)
    (hrd : (']') ∉ disp) (hw1 : ∀ c ∈ ws1, isJsWS c = true) (hb : ('%') ∉ body)
    (hw2 : ∀ c ∈ ws2, isJsWS c = true)
    (hrest : rest = [] ∨ ∃ d t, rest = d :: t ∧ isJsWS d = false) :
    matchDexUrlWithCommentAt cid
      (dexLink disp cid ++
        (ws1 ++ ((("%%dex:").toList) ++ (body ++ ((("%%").toList) ++ (ws2 ++ rest)))))) =
      some ⟨dexLink disp cid, ws2, rest⟩ := by
  have h1 : spanP isJsWS
      (ws1 ++ ((("%%dex:").toList) ++ (body ++ ((("%%").toList) ++ (ws2 ++ rest))))) =
      (ws1, (("%%dex:").toList) ++ (body ++ ((("%%").toList) ++ (ws2 ++ rest)))) := by
    rw [show (("%%dex:").toList) ++ (body ++ ((("%%").toList) ++ (ws2 ++ rest))) =
      ('%') :: ((("%dex:").toList) ++ (body ++ ((("%%").toList) ++ (ws2 ++ rest)))) from rfl]
    exact spanP_ws_before_pct hw1 _
  have h2 : ciStrip (("%%dex:").toList)
      ((("%%dex:").toList) ++ (body ++ ((("%%").toList) ++ (ws2 ++ rest)))) =
      some ((("%%dex:").toList), body ++ ((("%%").toList) ++ (ws2 ++ rest))) :=
    ciStrip_self _ _
  have h3 : spanP (fun c => !(c = '%')) (body ++ ((("%%").toList) ++ (ws2 ++ rest))) =
      (body, (("%%").toList) ++ (ws2 ++ rest)) := by
    rw [show (("%%").toList) ++ (ws2 ++ rest) =
      ('%') :: ((("%").toList) ++ (ws2 ++ rest)) from rfl]
    exact spanP_stop (fun c hc => by
      simp only [Bool.not_eq_true', decide_eq_false_iff_not]
      exact fun h => hb (h ▸ hc)) (by simp) _
  have h4 : ciStrip (("%%").toList) ((("%%").toList) ++ (ws2 ++ rest)) =
      some ((("%%").toList), ws2 ++ rest) := ciStrip_self _ _
  have h5 := spanP_ws_end hw2 hrest
  simp only [matchDexUrlWithCommentAt,
    matchDexUrlAt_structured hrd cid
      (ws1 ++ ((("%%dex:").toList) ++ (body ++ ((("%%").toList) ++ (ws2 ++ rest))))),
    h1, h2, h3, h4, h5]

/-! ### The hash token is a usable annotation field value -/

theorem digit36_toNat {d : Nat} (hd : d < 36) :
    (digit36 d).toNat = 48 + d ∨ (digit36 d).toNat = 87 + d := by
  unfold digit36
  by_cases h : d < 10
  · left
    rw [if_pos h]
    exact toNat_ofNat_valid (Or.inl (by omega))
  · right
    rw [if_neg h]
    exact toNat_ofNat_valid (Or.inl (by omega))

theorem digit36_fieldChar {d : Nat} (hd : d < 36) :
    (!(decide (digit36 d = ',') || decide (digit36 d = '%') || decide (digit36 d = ')'))) =
      true := by
  have h44 : (',').toNat = 44 := rfl
  have h37 : ('%').toNat = 37 := rfl
  have h41 : (')').toNat = 41 := rfl
  have hno : digit36 d ≠ ',' ∧ digit36 d ≠ '%' ∧ digit36 d ≠ ')' := by
    refine ⟨fun h => ?_, fun h => ?_, fun h => ?_⟩ <;>
      · have := congrArg Char.toNat h
        rcases digit36_toNat hd with h2 | h2 <;> omega
  simp [hno.1, hno.2.1, hno.2.2]

theorem toBase36Go_chars {fuel n : Nat} :
    ∀ c ∈ toBase36Go fuel n,
      (!(decide (c = ',') || decide (c = '%') || decide (c = ')'))) = true := by
  induction fuel generalizing n with
  | zero => intro c hc; simp [toBase36Go] at hc
  | succ f ih =>
    intro c hc
    unfold toBase36Go at hc
    by_cases hn : n = 0
    · simp [hn] at hc
    · rw [if_neg hn] at hc
      rcases List.mem_append.mp hc with h | h
      · exact ih c h
      · have : c = digit36 (n % 36) := by simpa using h
        rw [this]
        exact digit36_fieldChar (Nat.mod_lt n (by omega))

theorem fieldOK_simpleHash (s : Str) : fieldOK (simpleHash s) = true := by
  unfold simpleHash toBase36 fieldOK
  by_cases h : (simpleHashAux s 0).natAbs = 0
  · rw [if_pos h]
    decide
  · rw [if_neg h]
    rw [Bool.and_eq_true]
    constructor
    · -- nonempty: fuel = n ≠ 0, so the last digit is emitted
      generalize (simpleHashAux s 0).natAbs = n at h ⊢
      cases hn : n with
      | zero => exact absurd hn h
      | succ m =>
        simp only [toBase36Go, hn]
        rw [if_neg (by omega)]
        simp
    · rw [List.all_eq_true]
      intro c hc
      exact toBase36Go_chars c hc

theorem fieldOK_of_idOK {v : Str} (hv : idOK v = true) : fieldOK v = true := by
  unfold fieldOK
  rw [Bool.and_eq_true]
  constructor
  · simpa using idOK_nonempty hv
  · rw [List.all_eq_true]
    intro c hc
    have h := idOK_all hv c hc
    have h44 : (',').toNat = 44 := rfl
    have h37 : ('%').toNat = 37 := rfl
    have h41 : (')').toNat = 41 := rfl
    have hno : c ≠ ',' ∧ c ≠ '%' ∧ c ≠ ')' := by
      refine ⟨fun he => ?_, fun he => ?_, fun he => ?_⟩ <;>
        · have := congrArg Char.toNat he
          rcases idChar_toNat h with ⟨x, y⟩ | ⟨x, y⟩ | x | x <;> omega
    simp [hno.1, hno.2.1, hno.2.2]

/-! ### The detector on single-line documents -/

theorem detectContentBlock_one {L : Str} {g : MemoGroups} (h : memoIdMatch L = some g) :
    detectContentBlock [L] 0 =
      ⟨0, [trimJS (cleanupDex L)], g.2.1.isSome, g.2.1, g.2.2⟩ := by
  unfold detectContentBlock
  simp [getLineD, h, blockWalk, popTrailingBlank, popTrailingBlankRev]

theorem detectContentBlock_one_none {L : Str} (h : memoIdMatch L = none) :
    detectContentBlock [L] 0 = ⟨0, [trimJS (cleanupDex L)], false, none, none⟩ := by
  unfold detectContentBlock
  simp [getLineD, h, blockWalk, popTrailingBlank, popTrailingBlankRev]

theorem noPct_trimJS {s : Str} (h : ('%') ∉ s) : ('%') ∉ trimJS s :=
  fun hc => h (mem_of_mem_trimJS hc)

/-! ### The annotation-rewrite cascade on structured lines -/

/-- When the first (`dexUrlWithComment`) pattern matches, the rewrite is
its replacement. -/
theorem rewriteStartLine_withComment {cid mid hash line P : Str} {parts : MatchParts}
    (hscan : scanFirst (matchDexUrlWithCommentAt cid) line = some (P, parts)) :
    rewriteStartLine cid mid hash line =
      P ++ (parts.g1 ++ (dexAnnFull cid mid hash ++ (parts.g2 ++ parts.rest))) := by
  unfold rewriteStartLine replaceFirst
  rw [hscan]
  simp

/-- When the line has no `%` and no `(`, only the plain vault-link pattern
can match; a vault link after a bracket-free prefix gets the new annotation
inserted right after it, followed by one space. -/
theorem rewriteStartLine_insert_vault {cid mid hash pre inner post : Str}
    (hpct : ('%') ∉ pre ++ (vaultLink inner ++ post))
    (hparen : ('(') ∉ pre ++ (vaultLink inner ++ post))
    (hbr : ('[') ∉ pre) (hne : inner ≠ []) (hri : (']') ∉ inner) :
    rewriteStartLine cid mid hash (pre ++ (vaultLink inner ++ post)) =
      pre ++ (vaultLink inner ++ (dexAnnFull cid mid hash ++ (' ' :: post))) := by
  unfold rewriteStartLine replaceFirst
  rw [scanFirst_none_of_key (fun t a h => matchDexUrlWithCommentAt_hasParen h) hparen]
  rw [scanFirst_none_of_key (fun t a h => matchVaultWithCommentAt_hasPct h) hpct]
  rw [scanFirst_none_of_key (fun t a h => matchDexUrlAt_hasParen h) hparen]
  rw [scanFirst_skip_key (fun t a h => matchVaultAt_head h) hbr]
  rw [scanFirst_of_match (matchVaultAt_structured hne hri post)]
  simp

/-- When none of the four patterns matches anywhere, the line is unchanged. -/
theorem rewriteStartLine_id {cid mid hash line : Str}
    (h1 : scanFirst (matchDexUrlWithCommentAt cid) line = none)
    (h2 : scanFirst (matchVaultWithCommentAt cid) line = none)
    (h3 : scanFirst (matchDexUrlAt cid) line = none)
    (h4 : scanFirst matchVaultAt line = none) :
    rewriteStartLine cid mid hash line = line := by
  unfold rewriteStartLine replaceFirst
  rw [h1, h2, h3, h4]
  rfl

/-! ### The walk's continuation rule, as the claim states it -/

/-- Modelled from the spec (§4.1) and the claim's wording: a following line
continues the block iff it is not blank, not a sibling list item at the
start's indentation (when the start is a list item), not a header at
same-or-lesser indentation, and it is either more indented than the start
or a same-indent non-list non-header line. -/
def specContinues (startIndent : Int) (startIsListItem : Bool) (line : Str) : Bool :=
  let t := trimJS line
  let ind := searchNonWS line
  !t.isEmpty &&
    !(startIsListItem && isListItemStr t && ind = startIndent) &&
    !(isHeaderStr t && decide (ind ≤ startIndent)) &&
    (decide (startIndent < ind) ||
      (ind = startIndent && !isListItemStr t && !isHeaderStr t))

/-- A blockquote line is neither a list item nor a header. -/
theorem isBlockquoteStr_not {t : Str} (h : isBlockquoteStr t = true) :
    isListItemStr t = false ∧ isHeaderStr t = false := by
  cases t with
  | nil => simp [isBlockquoteStr] at h
  | cons c cs =>
    cases cs with
    | nil => simp [isBlockquoteStr] at h
    | cons d ds =>
      have hc : c = '>' := by
        by_contra hcc
        simp [isBlockquoteStr, hcc] at h
      subst hc
      exact ⟨rfl, rfl⟩

/-- The forward walk includes exactly the maximal run of continuing lines,
collecting their annotation-stripped texts. -/
theorem blockWalk_eq_takeWhile (si : Int) (sl : Bool) (ls : List Str) :
    blockWalk si sl ls =
      ((ls.takeWhile (specContinues si sl)).length,
        (ls.takeWhile (specContinues si sl)).map cleanupDex) := by
  induction ls with
  | nil => rfl
  | cons l ls ih =>
    simp only [blockWalk]
    rw [List.takeWhile_cons]
    by_cases h1 : (trimJS l).isEmpty
    · have hspec : specContinues si sl l = false := by simp [specContinues, h1]
      simp [h1, hspec]
    · rw [if_neg h1]
      by_cases h2 : (sl && isListItemStr (trimJS l) && decide (searchNonWS l = si)) = true
      · have hspec : specContinues si sl l = false := by
          simp only [Bool.and_eq_true, decide_eq_true_eq] at h2
          simp [specContinues, h2.1.1, h2.1.2, h2.2, h1]
        rw [if_pos h2, hspec]
        simp
      · rw [if_neg h2]
        by_cases h3 : (isHeaderStr (trimJS l) && decide (searchNonWS l ≤ si)) = true
        · have hspec : specContinues si sl l = false := by
            simp only [Bool.and_eq_true, decide_eq_true_eq] at h3
            simp [specContinues, h3.1, h3.2]
          rw [if_pos h3, hspec]
          simp
        · rw [if_neg h3]
          by_cases h4 : (decide (si < searchNonWS l) ||
              (isBlockquoteStr (trimJS l) && decide (si ≤ searchNonWS l))) = true
          · have hspec : specContinues si sl l = true := by
              simp only [Bool.or_eq_true, Bool.and_eq_true, decide_eq_true_eq] at h4
              rcases h4 with h4 | ⟨hbq, hle⟩
              · simp only [specContinues, Bool.and_eq_true, Bool.not_eq_true',
                  Bool.or_eq_true, decide_eq_true_eq]
                refine ⟨⟨⟨by simpa using h1, ?_⟩, ?_⟩, Or.inl h4⟩
                · cases hx : (sl && isListItemStr (trimJS l) &&
                    decide (searchNonWS l = si)) <;> simp_all
                · cases hx : (isHeaderStr (trimJS l) &&
                    decide (searchNonWS l ≤ si)) <;> simp_all
              · by_cases hlt : si < searchNonWS l
                · simp only [specContinues, Bool.and_eq_true, Bool.not_eq_true',
                    Bool.or_eq_true, decide_eq_true_eq]
                  refine ⟨⟨⟨by simpa using h1, ?_⟩, ?_⟩, Or.inl hlt⟩
                  · cases hx : (sl && isListItemStr (trimJS l) &&
                      decide (searchNonWS l = si)) <;> simp_all
                  · cases hx : (isHeaderStr (trimJS l) &&
                      decide (searchNonWS l ≤ si)) <;> simp_all
                · have heq : searchNonWS l = si := by omega
                  obtain ⟨hnl, hnh⟩ := isBlockquoteStr_not hbq
                  simp [specContinues, h1, heq, hnl, hnh]
            rw [if_pos h4, hspec]
            simp [ih]
          · rw [if_neg h4]
            by_cases h5 : (decide (searchNonWS l = si) && !isListItemStr (trimJS l) &&
                !isHeaderStr (trimJS l)) = true
            · have hspec : specContinues si sl l = true := by
                simp only [Bool.and_eq_true, Bool.not_eq_true', decide_eq_true_eq] at h5
                simp [specContinues, h1, h5.1.1, h5.1.2, h5.2]
              rw [if_pos h5, hspec]
              simp [ih]
            · have hlt : ¬ si < searchNonWS l := fun hc => h4 (by simp [hc])
              have hfourth : (decide (si < searchNonWS l) ||
                  (decide (searchNonWS l = si) && !isListItemStr (trimJS l) &&
                    !isHeaderStr (trimJS l))) = false := by
                cases hd1 : decide (si < searchNonWS l) with
                | true => exact absurd (of_decide_eq_true hd1) hlt
                | false =>
                  cases hd2 : (decide (searchNonWS l = si) && !isListItemStr (trimJS l) &&
                      !isHeaderStr (trimJS l)) with
                  | true => exact absurd hd2 h5
                  | false => rfl
              have hspec : specContinues si sl l = false := by
                simp [specContinues, hfourth]
              rw [if_neg h5, hspec]
              simp


/-! ### Classifier agreement helper -/

theorem detect_hasMemo_eq (doc : List Str) (s : Nat) :
    (detectContentBlock doc s).hasExistingMemo =
      (detectContentBlock doc s).memoId.isSome := by
  unfold detectContentBlock
  cases h : memoIdMatch (getLineD doc s) <;> simp [h]

theorem findContentBlockEnd_classifySpec (doc : List Str) (s : Nat) :
    (findContentBlockEnd doc s).syncStatus =
      classifySpec (detectContentBlock doc s).hasExistingMemo
        (detectContentBlock doc s).memoId (detectContentBlock doc s).storedHash
        (findContentBlockEnd doc s).contentHash := by
  have hmem := detect_hasMemo_eq doc s
  unfold findContentBlockEnd classifySpec
  cases hh : (detectContentBlock doc s).hasExistingMemo
  · rw [hh] at hmem
    simp [hh]
  · rw [hh] at hmem
    have hsome : (detectContentBlock doc s).memoId ≠ none := by
      intro hq
      rw [hq] at hmem
      simp at hmem
    cases hsh : (detectContentBlock doc s).storedHash with
    | none => simp [hh, hsh, hsome]
    | some v =>
      by_cases he : v = simpleHash (trimJS (joinNL (detectContentBlock doc s).contentLines))
      · simp [hh, hsh, he, hsome]
      · simp [hh, hsh, he, hsome]

/-! ## Claim theorems -/

set_option maxRecDepth 40000

/-- C4: the content-block detector's forward walk from `startLine + 1`
includes exactly the maximal run of continuing lines — every line more
indented than the start and every same-indent non-list non-header line —
and stops at the first blank line, sibling list item at a list-item start's
indentation, header at same-or-lesser indentation, or other same/lesser-
indented structure (`specContinues` states the claim's rule verbatim); in
particular `["- contact mention", "  indented note", "- sibling item"]`
yields the block 0–1 and `["mention text", "# Header", "more text"]` the
block 0–0. -/
theorem C4_detectContentBlock_boundary :
    (∀ (doc : List Str) (start : Nat),
      (detectContentBlock doc start).endLine =
        start + ((doc.drop (start + 1)).takeWhile
          (specContinues (searchNonWS (getLineD doc start))
            (isListItemStr (trimJS (getLineD doc start))))).length ∧
      (detectContentBlock doc start).contentLines =
        popTrailingBlank (trimJS (cleanupDex (getLineD doc start)) ::
          ((doc.drop (start + 1)).takeWhile
            (specContinues (searchNonWS (getLineD doc start))
              (isListItemStr (trimJS (getLineD doc start))))).map cleanupDex)) ∧
    (detectContentBlock [(("- contact mention").toList), (("  indented note").toList),
      (("- sibling item").toList)] 0).endLine = 1 ∧
    (detectContentBlock [(("mention text").toList), (("# Header").toList),
      (("more text").toList)] 0).endLine = 0 := by
  refine ⟨fun doc start => ?_, by decide, by decide⟩
  unfold detectContentBlock
  dsimp only []
  rw [blockWalk_eq_takeWhile]
  exact ⟨rfl, rfl⟩

/-- The status-bar counter's concrete legacy input: a vault link whose
annotation has a memo id but no stored hash. -/
def c3LegacyLine : Str := ("[[Jane]]%%dex:contact-id=c1,memo-id=m1%%").toList

/-- C3 counterexample: on a document whose single tracked block carries a
memo id but no stored hash, the four ordered rules (and the inline
classifier) give needs-resync, yet the status-bar memo counter counts the
block as synced (1 synced of 1 total) — so classification does not follow
the four rules at every decision point. -/
theorem C3_counterexample :
    countMemos [c3LegacyLine] = (1, 1) ∧
    (findContentBlockEnd [c3LegacyLine] 0).syncStatus = SyncStatus.needsResync := by
  constructor
  · decide
  · decide

/-- C3 (amended): the inline sync-button classifier follows the four
ordered rules exactly — its status equals the spec's `classify` on the
detector's annotation fields and the current hash, for every document and
start line; the status-bar memo counter follows rules 1, 3 and 4 but counts
a block with a memo id and no stored hash as synced rather than
needs-resync, as the legacy document shows. -/
theorem C3_classifier_rules :
    (∀ (doc : List Str) (s : Nat),
      (findContentBlockEnd doc s).syncStatus =
        classifySpec (detectContentBlock doc s).hasExistingMemo
          (detectContentBlock doc s).memoId (detectContentBlock doc s).storedHash
          (findContentBlockEnd doc s).contentHash) ∧
    countMemos [c3LegacyLine] = (1, 1) ∧
    (detectContentBlock [c3LegacyLine] 0).hasExistingMemo = true ∧
    (detectContentBlock [c3LegacyLine] 0).storedHash = none := by
  refine ⟨findContentBlockEnd_classifySpec, by decide, by decide, by decide⟩

/-- C8 counterexample: an annotation carrying only the memo-id field,
written in the grammar's field order but without the comma that the full
form places before `memo-id`, does not match `MEMO_ID_PATTERN` at all —
the present field is reported absent, so parsing does not extract exactly
the fields present for every subset. -/
theorem C8_counterexample :
    memoIdMatch ((("%%dex:memo-id=m1%%").toList)) = none ∧
    memoIdMatch ((("%%dex:hash=h1%%").toList)) = none := by
  constructor
  · decide
  · decide

/-- C8 (amended): for every annotation `%%dex:…%%` carrying any subset of
the three fields in the fixed written order — each present non-first field
keeping its leading comma, and each value nonempty and free of the
delimiter characters `,`, `%`, `)` — parsing with `MEMO_ID_PATTERN`
extracts exactly the present fields (absent fields come back absent, and
the parser is a total function, so no input is a hard error). -/
theorem C8_subset_parsing {pre : Str} (hpre : ('%') ∉ pre)
    (oc om oh : Option Str) (hc : fieldOKo oc = true) (hm : fieldOKo om = true)
    (hh : fieldOKo oh = true) (post : Str) :
    memoIdMatch (pre ++ (annOf oc om oh ++ post)) = some (oc, om, oh) :=
  memoIdMatch_structured hpre oc om oh hc hm hh post

/-- C8 witness: a concrete memo-id-only annotation (with its leading comma)
on a line with surrounding text parses to exactly that field. -/
theorem C8_subset_parsing_witness :
    (('%') ∉ (("note ").toList)) ∧
    memoIdMatch ((("note ").toList) ++
      (annOf none (some (("m1").toList)) none ++ ((" tail").toList))) =
      some (none, some (("m1").toList), none) :=
  ⟨by decide, C8_subset_parsing (by decide) none (some (("m1").toList)) none
    (by decide) (by decide) (by decide) ((" tail").toList)⟩

/-- The C1 failing input: a vault link whose annotation stores memo id `m1`
and exactly the current content hash of the block. -/
def c1Link : Str := ("[[J]]").toList

def c1Line : Str :=
  c1Link ++ ((("%%dex:contact-id=c1,memo-id=m1,hash=").toList) ++
    (simpleHash c1Link ++ (("%%").toList)))

/-- C1: code bug.  The block's start-line annotation carries memo id `m1`
and a stored hash equal to the hash of the current annotation-stripped
content — the inline classifier itself reports `synced` — yet
`syncContactMemo` does not short-circuit: its unchanged-content check reads
the stored hash with the `data-hash="…"` pattern from the block's end line,
a token the plugin never writes, so the check finds nothing and a remote
update call is issued (made visible here by a failing remote).  The claim
(and the spec's idempotence property) say the existing memo id is returned
with no remote call. -/
theorem C1_idempotent_shortCircuit_bug :
    (detectContentBlock [c1Line] 0).storedHash = some (simpleHash c1Link) ∧
    (findContentBlockEnd [c1Line] 0).syncStatus = SyncStatus.synced ∧
    syncShortCircuit [c1Line] 0 = none ∧
    syncCallKind [c1Line] (("c1").toList) 0 =
      RemoteCall.update (("m1").toList) (("c1").toList) ∧
    syncContactMemo (fun _ => RemoteAnswer.fail (("network error").toList))
      (("c1").toList) [c1Line] 0 =
      (SyncResult.err (("network error").toList), [c1Line]) := by
  refine ⟨by decide, by decide, by decide, by decide, by decide⟩

/-- C5: atomicity on remote failure — when the short-circuit does not fire
(a remote call is actually attempted) and the remote create/update call
throws, `syncContactMemo` propagates the error to the caller and no line of
the document is modified, leaving the previous annotation and its
classification intact. -/
theorem C5_atomic_on_remote_error (doc : List Str) (cid : Str) (i : Nat) (e : Str)
    (h : syncShortCircuit doc i = none) :
    syncContactMemo (fun _ => RemoteAnswer.fail e) cid doc i = (SyncResult.err e, doc) := by
  unfold syncContactMemo
  rw [h]

/-- C5 witness: a concrete document and failing remote. -/
theorem C5_atomic_witness :
    syncShortCircuit [(("hello world").toList)] 0 = none ∧
    syncContactMemo (fun _ => RemoteAnswer.fail (("E").toList)) (("c1").toList)
      [(("hello world").toList)] 0 =
      (SyncResult.err (("E").toList), [(("hello world").toList)]) :=
  ⟨by decide, C5_atomic_on_remote_error [(("hello world").toList)] (("c1").toList) 0
    (("E").toList) (by decide)⟩

/-- The C10 counterexample input: a start line with no link at all, whose
second annotation carries a `data-hash` token equal to the hash of the
(empty) stripped content. -/
def c10Line : Str :=
  ("%%dex:contact-id=c1,memo-id=m1,hash=h%% %%dex:data-hash=\"0\"%%").toList

/-- C10 counterexample: the start line contains no recognized link
construct for the target contact, yet `syncContactMemo` performs NO remote
call (the failing remote is never consulted): the unchanged-content
short-circuit fires off the stray `data-hash` token and returns the stored
memo id, contradicting the claim that the remote create/update call is
still performed first. -/
theorem C10_counterexample :
    hasDexUrlLink c10Line = false ∧ hasVaultLink c10Line = false ∧
    syncContactMemo (fun _ => RemoteAnswer.fail (("E").toList)) (("c1").toList)
      [c10Line] 0 = (SyncResult.ok (("m1").toList), [c10Line]) := by
  refine ⟨by decide, by decide, by decide⟩

/-- C10 (amended): provided the unchanged-content short-circuit does not
fire, if none of the four link patterns matches anywhere on the start line
(no recognized link construct for the target contact), `syncContactMemo`
still performs the remote create/update call first, then writes nothing —
every line of the document is byte-for-byte unchanged — and returns the
remote memo id successfully instead of aborting. -/
theorem C10_no_link_still_syncs (doc : List Str) (cid : Str) (i : Nat) (res : NoteResult)
    (hsc : syncShortCircuit doc i = none)
    (h1 : scanFirst (matchDexUrlWithCommentAt cid) (getLineD doc i) = none)
    (h2 : scanFirst (matchVaultWithCommentAt cid) (getLineD doc i) = none)
    (h3 : scanFirst (matchDexUrlAt cid) (getLineD doc i) = none)
    (h4 : scanFirst matchVaultAt (getLineD doc i) = none) :
    syncContactMemo (fun _ => RemoteAnswer.ok res) cid doc i = (SyncResult.ok res.id, doc) := by
  unfold syncContactMemo applyAnnRewrite
  rw [hsc]
  dsimp only []
  rw [rewriteStartLine_id h1 h2 h3 h4]
  simp

/-- C10 witness: a plain text line with no link. -/
theorem C10_no_link_witness :
    syncShortCircuit [(("plain note").toList)] 0 = none ∧
    syncContactMemo (fun _ => RemoteAnswer.ok ⟨(("m7").toList), false⟩) (("c1").toList)
      [(("plain note").toList)] 0 =
      (SyncResult.ok (("m7").toList), [(("plain note").toList)]) :=
  ⟨by decide, C10_no_link_still_syncs [(("plain note").toList)] (("c1").toList) 0
    ⟨(("m7").toList), false⟩ (by decide) (by decide) (by decide) (by decide) (by decide)⟩

/-- The C9 counterexample input: the stored memo id carries the `memo_`
fallback marker, and a stray `data-hash` token on the line matches the
current (empty) stripped-content hash. -/
def c9Line : Str :=
  ("%%dex:contact-id=c1,memo-id=memo_1,hash=h%% %%dex:data-hash=\"0\"%%").toList

/-- C9 counterexample: the stored memo id `memo_1` is prefixed with the
local-fallback marker, yet `syncContactMemo` calls NO remote endpoint at
all (the failing remote is never consulted): the unchanged-content
short-circuit fires first and returns the fallback id unchanged, so the
claim's "whenever … calls the remote CREATE endpoint" fails. -/
theorem C9_counterexample :
    (detectContentBlock [c9Line] 0).memoId = some (("memo_1").toList) ∧
    strStarts fallbackMarker (("memo_1").toList) = true ∧
    syncContactMemo (fun _ => RemoteAnswer.fail (("E").toList)) (("c1").toList)
      [c9Line] 0 = (SyncResult.ok (("memo_1").toList), [c9Line]) := by
  refine ⟨by decide, by decide, by decide⟩

/-- C9 (amended): provided the unchanged-content short-circuit does not
fire, whenever the stored memo id carries the `memo_` local-fallback
marker, `syncContactMemo` decides CREATE rather than UPDATE, and — when the
start line holds the contact's Dex URL link followed by its annotation —
the line rewrite replaces that annotation with one carrying the newly
returned remote id in place of the fallback id. -/
theorem C9_fallback_forces_create (doc : List Str) (cid mid : Str) (i : Nat)
    (pre disp ws1 body ws2 rest newId e : Str)
    (hsc : syncShortCircuit doc i = none)
    (hmid : (getContentBlock doc i).memoId = some mid)
    (hfb : strStarts fallbackMarker mid = true)
    (hline : getLineD doc i = pre ++ (dexLink disp cid ++ (ws1 ++ ((("%%dex:").toList) ++
      (body ++ ((("%%").toList) ++ (ws2 ++ rest)))))))
    (hbr : ('[') ∉ pre) (hrd : (']') ∉ disp)
    (hw1 : ∀ c ∈ ws1, isJsWS c = true) (hb : ('%') ∉ body)
    (hw2 : ∀ c ∈ ws2, isJsWS c = true)
    (hrest : rest = [] ∨ ∃ d t, rest = d :: t ∧ isJsWS d = false) :
    syncCallKind doc cid i = RemoteCall.create cid ∧
    syncContactMemo (fun rc => match rc with
      | RemoteCall.create _ => RemoteAnswer.ok ⟨newId, false⟩
      | RemoteCall.update _ _ => RemoteAnswer.fail e) cid doc i =
      (SyncResult.ok newId, applyAnnRewrite cid newId doc i) ∧
    rewriteStartLine cid newId
        (simpleHash (trimJS (cleanupDex (getContentBlock doc i).content)))
        (getLineD doc i) =
      pre ++ (dexLink disp cid ++
        (dexAnnFull cid newId
          (simpleHash (trimJS (cleanupDex (getContentBlock doc i).content))) ++
          (ws2 ++ rest))) := by
  have hkind : syncCallKind doc cid i = RemoteCall.create cid := by
    unfold syncCallKind
    dsimp only []
    rw [hmid]
    dsimp only []
    rw [if_pos hfb]
  refine ⟨hkind, ?_, ?_⟩
  · unfold syncContactMemo
    rw [hsc, hkind]
  · rw [hline]
    have hscan : scanFirst (matchDexUrlWithCommentAt cid)
        (pre ++ (dexLink disp cid ++ (ws1 ++ ((("%%dex:").toList) ++
          (body ++ ((("%%").toList) ++ (ws2 ++ rest))))))) =
        some (pre, ⟨dexLink disp cid, ws2, rest⟩) := by
      rw [scanFirst_skip_key (fun t a h => matchDexUrlWithCommentAt_head h) hbr]
      rw [scanFirst_of_match (matchDexUrlWithCommentAt_structured cid hrd hw1 hb hw2 hrest)]
      simp
    rw [rewriteStartLine_withComment hscan]

/-- C9 witness input: a Dex URL link followed by an annotation storing the
fallback id `memo_1`. -/
def c9WitLine : Str :=
  (("x ").toList) ++ (dexLink (("J").toList) (("c1").toList) ++ (([] : Str) ++
    ((("%%dex:").toList) ++ ((("contact-id=c1,memo-id=memo_1,hash=abc").toList) ++
      ((("%%").toList) ++ (([] : Str) ++ ([] : Str)))))))

/-- C9 witness: the amended theorem at a concrete line carrying a fallback
memo id. -/
theorem C9_fallback_witness :
    syncShortCircuit [c9WitLine] 0 = none ∧
    strStarts fallbackMarker (("memo_1").toList) = true ∧
    (syncCallKind [c9WitLine] (("c1").toList) 0 = RemoteCall.create (("c1").toList) ∧
     syncContactMemo (fun rc => match rc with
       | RemoteCall.create _ => RemoteAnswer.ok ⟨(("m9").toList), false⟩
       | RemoteCall.update _ _ => RemoteAnswer.fail (("E").toList))
       (("c1").toList) [c9WitLine] 0 =
       (SyncResult.ok (("m9").toList),
        applyAnnRewrite (("c1").toList) (("m9").toList) [c9WitLine] 0) ∧
     rewriteStartLine (("c1").toList) (("m9").toList)
        (simpleHash (trimJS (cleanupDex (getContentBlock [c9WitLine] 0).content)))
        (getLineD [c9WitLine] 0) =
      (("x ").toList) ++ (dexLink (("J").toList) (("c1").toList) ++
        (dexAnnFull (("c1").toList) (("m9").toList)
          (simpleHash (trimJS (cleanupDex (getContentBlock [c9WitLine] 0).content))) ++
          (([] : Str) ++ ([] : Str))))) :=
  ⟨by decide, by decide,
    C9_fallback_forces_create [c9WitLine] (("c1").toList) (("memo_1").toList) 0
      (("x ").toList) (("J").toList) ([] : Str)
      (("contact-id=c1,memo-id=memo_1,hash=abc").toList) ([] : Str) ([] : Str)
      (("m9").toList) (("E").toList)
      (by decide) (by decide) (by decide) rfl (by decide) (by decide)
      (by simp) (by decide) (by simp) (Or.inl rfl)⟩

/-- The annotation written by the orchestrator is the wire format's
full-triple annotation. -/
theorem dexAnnFull_eq_annOf (cid mid hash : Str) :
    dexAnnFull cid mid hash = annOf (some cid) (some mid) (some hash) := by
  unfold dexAnnFull annOf
  rw [show ("%%dex:contact-id=").toList = ("%%dex:").toList ++ ("contact-id=").toList
    from rfl]
  simp

/-- C6 counterexample: for the triple `(c1, "m,1", h1)` — a memo id
containing a comma — writing the annotation after the contact's recognized
link and re-parsing the line recovers no fields at all (`MEMO_ID_PATTERN`
does not match), not the original triple, so the round-trip fails for
arbitrary triples. -/
theorem C6_counterexample :
    memoIdMatch (rewriteStartLine (("c1").toList) (("m,1").toList) (("h1").toList)
      (("See [[Jane]] now").toList)) = none := by
  decide

/-- C6 (amended): for every triple whose components are nonempty and free
of the delimiter characters `,`, `%`, `)`, writing the annotation onto a
`%`- and `(`-free line containing the contact's recognized (vault) link and
re-parsing the rewritten line with the annotation pattern recovers exactly
the same triple. -/
theorem C6_roundTrip (pre inner post cid mid hash : Str)
    (hpct : ('%') ∉ pre ++ (vaultLink inner ++ post))
    (hparen : ('(') ∉ pre ++ (vaultLink inner ++ post))
    (hbr : ('[') ∉ pre) (hne : inner ≠ []) (hri : (']') ∉ inner)
    (hc : fieldOK cid = true) (hm : fieldOK mid = true) (hh : fieldOK hash = true) :
    memoIdMatch (rewriteStartLine cid mid hash (pre ++ (vaultLink inner ++ post))) =
      some (some cid, some mid, some hash) := by
  rw [rewriteStartLine_insert_vault hpct hparen hbr hne hri]
  have hpre2 : ('%') ∉ pre ++ vaultLink inner := by
    intro hmem
    apply hpct
    rcases List.mem_append.mp hmem with h | h
    · exact List.mem_append.mpr (Or.inl h)
    · exact List.mem_append.mpr (Or.inr (List.mem_append.mpr (Or.inl h)))
  have hsplit : pre ++ (vaultLink inner ++ (dexAnnFull cid mid hash ++ (' ' :: post))) =
      (pre ++ vaultLink inner) ++
        (annOf (some cid) (some mid) (some hash) ++ (' ' :: post)) := by
    rw [dexAnnFull_eq_annOf]
    simp
  rw [hsplit]
  exact memoIdMatch_structured hpre2 (some cid) (some mid) (some hash) hc hm hh (' ' :: post)

/-- C6 witness: the round-trip at a concrete line and triple. -/
theorem C6_roundTrip_witness :
    (('%') ∉ (("See ").toList) ++ (vaultLink (("Jane").toList) ++ ((" now").toList))) ∧
    memoIdMatch (rewriteStartLine (("c1").toList) (("m1").toList) (("h1").toList)
      ((("See ").toList) ++ (vaultLink (("Jane").toList) ++ ((" now").toList)))) =
      some (some (("c1").toList), some (("m1").toList), some (("h1").toList)) :=
  ⟨by decide,
    C6_roundTrip (("See ").toList) (("Jane").toList) ((" now").toList)
      (("c1").toList) (("m1").toList) (("h1").toList)
      (by decide) (by decide) (by decide) (by decide) (by decide)
      (by decide) (by decide) (by decide)⟩

theorem noPct_of_fieldOK {v : Str} (hv : fieldOK v = true) : ('%') ∉ v := by
  intro hmem
  have := fieldOK_ne hv ('%') hmem
  simp at this

/-- The C2 counterexample input and its rewritten form after the first
sync: inserting the annotation adds a separating space before the trailing
text, so the annotation-stripped content of the line changes. -/
def c2Line : Str := ("Met [[Jane]] today").toList

def c2LineAfter : Str :=
  ("Met [[Jane]]%%dex:contact-id=c1,memo-id=m1,hash=gx06ul%%  today").toList

/-- C2 counterexample: a successful first sync of a block whose mention is
followed by trailing text rewrites the line with the annotation plus an
inserted space, which changes the annotation-stripped text itself; re-
running the detector, hasher and classifier on the rewritten document
yields needs-resync, not synced. -/
theorem C2_counterexample :
    syncContactMemo (fun _ => RemoteAnswer.ok ⟨(("m1").toList), false⟩) (("c1").toList)
      [c2Line] 0 = (SyncResult.ok (("m1").toList), [c2LineAfter]) ∧
    (findContentBlockEnd [c2LineAfter] 0).syncStatus = SyncStatus.needsResync := by
  refine ⟨by decide, by decide⟩

/-- C2 (amended): the block hash is computed only over annotation-stripped
text, but the rewrite can change that text by inserting a separating space
before trailing content; when the recognized (vault) link ends the start
line of a one-line block, the stripped text is unchanged up to trailing
whitespace, and after any successful `syncContactMemo` re-running the
detector, hasher and classifier on the rewritten document yields `synced`
— the hash stored in the freshly written annotation equals the recomputed
hash of the rewritten block. -/
theorem C2_resync_after_sync (pre inner cid mid : Str) (b : Bool)
    (hpct : ('%') ∉ pre ++ vaultLink inner)
    (hparen : ('(') ∉ pre ++ vaultLink inner)
    (hbr : ('[') ∉ pre) (hne : inner ≠ []) (hri : (']') ∉ inner)
    (hc : fieldOK cid = true) (hm : fieldOK mid = true) :
    (syncContactMemo (fun _ => RemoteAnswer.ok ⟨mid, b⟩) cid
      [pre ++ vaultLink inner] 0).1 = SyncResult.ok mid ∧
    (findContentBlockEnd
      (syncContactMemo (fun _ => RemoteAnswer.ok ⟨mid, b⟩) cid
        [pre ++ vaultLink inner] 0).2 0).syncStatus = SyncStatus.synced := by
  have hmatchL : memoIdMatch (pre ++ vaultLink inner) = none := memoIdMatch_noPct hpct
  have hdet : detectContentBlock [pre ++ vaultLink inner] 0 =
      ⟨0, [trimJS (cleanupDex (pre ++ vaultLink inner))], false, none, none⟩ :=
    detectContentBlock_one_none hmatchL
  have hclean : cleanupDex (pre ++ vaultLink inner) = pre ++ vaultLink inner :=
    cleanupDex_noPct hpct
  have hcb : getContentBlock [pre ++ vaultLink inner] 0 =
      ⟨trimJS (pre ++ vaultLink inner), 0, false, none⟩ := by
    unfold getContentBlock
    rw [hdet, hclean]
    rfl
  have hsc : syncShortCircuit [pre ++ vaultLink inner] 0 = none := by
    unfold syncShortCircuit
    rw [hcb]
  have hH : trimJS (cleanupDex (getContentBlock [pre ++ vaultLink inner] 0).content) =
      trimJS (pre ++ vaultLink inner) := by
    rw [hcb]
    show trimJS (cleanupDex (trimJS (pre ++ vaultLink inner))) = _
    rw [cleanupDex_noPct (noPct_trimJS hpct), trimJS_idem]
  have hrw : rewriteStartLine cid mid (simpleHash (trimJS (pre ++ vaultLink inner)))
      (pre ++ vaultLink inner) =
      pre ++ (vaultLink inner ++
        (dexAnnFull cid mid (simpleHash (trimJS (pre ++ vaultLink inner))) ++ [' '])) := by
    have h0 : pre ++ vaultLink inner = pre ++ (vaultLink inner ++ ([] : Str)) := by simp
    calc rewriteStartLine cid mid (simpleHash (trimJS (pre ++ vaultLink inner)))
          (pre ++ vaultLink inner)
        = rewriteStartLine cid mid (simpleHash (trimJS (pre ++ vaultLink inner)))
          (pre ++ (vaultLink inner ++ ([] : Str))) := by rw [← h0]
      _ = _ := by
          rw [rewriteStartLine_insert_vault (by simpa using hpct) (by simpa using hparen)
            hbr hne hri]
  have hneq : pre ++ (vaultLink inner ++
      (dexAnnFull cid mid (simpleHash (trimJS (pre ++ vaultLink inner))) ++ [' '])) ≠
      pre ++ vaultLink inner := by
    intro heq
    have hlen := congrArg List.length heq
    simp [dexAnnFull] at hlen
  have hcall : syncContactMemo (fun _ => RemoteAnswer.ok ⟨mid, b⟩) cid
      [pre ++ vaultLink inner] 0 =
      (SyncResult.ok mid, [pre ++ (vaultLink inner ++
        (dexAnnFull cid mid (simpleHash (trimJS (pre ++ vaultLink inner))) ++ [' ']))]) := by
    unfold syncContactMemo applyAnnRewrite
    rw [hsc]
    dsimp only []
    rw [show getLineD [pre ++ vaultLink inner] 0 = pre ++ vaultLink inner from rfl]
    rw [hH, hrw, if_neg hneq]
    rfl
  rw [hcall]
  refine ⟨rfl, ?_⟩
  -- classification of the rewritten document
  have hshape : pre ++ (vaultLink inner ++
      (dexAnnFull cid mid (simpleHash (trimJS (pre ++ vaultLink inner))) ++ [' '])) =
      (pre ++ vaultLink inner) ++
        (annOf (some cid) (some mid)
          (some (simpleHash (trimJS (pre ++ vaultLink inner)))) ++ [' ']) := by
    rw [dexAnnFull_eq_annOf]
    simp
  have hmatch2 : memoIdMatch (pre ++ (vaultLink inner ++
      (dexAnnFull cid mid (simpleHash (trimJS (pre ++ vaultLink inner))) ++ [' ']))) =
      some (some cid, some mid, some (simpleHash (trimJS (pre ++ vaultLink inner)))) := by
    rw [hshape]
    exact memoIdMatch_structured hpct _ _ _ (by exact hc) (by exact hm)
      (by exact fieldOK_simpleHash _) [' ']
  have hdet2 := detectContentBlock_one hmatch2
  have hcleanshape : pre ++ (vaultLink inner ++
      (dexAnnFull cid mid (simpleHash (trimJS (pre ++ vaultLink inner))) ++ [' '])) =
      (pre ++ vaultLink inner) ++ ((("%%dex:").toList) ++
        (((("contact-id=").toList) ++ (cid ++ ((",memo-id=").toList ++ (mid ++
          ((",hash=").toList ++ simpleHash (trimJS (pre ++ vaultLink inner))))))) ++
          ((("%%").toList) ++ [' ']))) := by
    unfold dexAnnFull
    rw [show ("%%dex:contact-id=").toList = ("%%dex:").toList ++ ("contact-id=").toList
      from rfl]
    simp
  have hbodynp : ('%') ∉ (("contact-id=").toList) ++ (cid ++ ((",memo-id=").toList ++
      (mid ++ ((",hash=").toList ++ simpleHash (trimJS (pre ++ vaultLink inner)))))) := by
    intro hmem
    simp only [List.mem_append] at hmem
    rcases hmem with h | h | h | h | h | h
    · revert h; decide
    · exact noPct_of_fieldOK hc h
    · revert h; decide
    · exact noPct_of_fieldOK hm h
    · revert h; decide
    · exact noPct_of_fieldOK (fieldOK_simpleHash _) h
  have hclean2 : cleanupDex (pre ++ (vaultLink inner ++
      (dexAnnFull cid mid (simpleHash (trimJS (pre ++ vaultLink inner))) ++ [' ']))) =
      (pre ++ vaultLink inner) ++ [' '] := by
    rw [hcleanshape, cleanupDex_split hpct hbodynp]
    rw [show cleanupDex [' '] = [' '] from rfl]
  have htrim2 : trimJS (cleanupDex (pre ++ (vaultLink inner ++
      (dexAnnFull cid mid (simpleHash (trimJS (pre ++ vaultLink inner))) ++ [' '])))) =
      trimJS (pre ++ vaultLink inner) := by
    rw [hclean2, trimJS_append_ws]
    intro c hc1
    simp at hc1
    rw [hc1]
    rfl
  unfold findContentBlockEnd
  rw [hdet2]
  dsimp only []
  rw [show joinNL [trimJS (cleanupDex (pre ++ (vaultLink inner ++
      (dexAnnFull cid mid (simpleHash (trimJS (pre ++ vaultLink inner))) ++ [' '])))) ] =
    trimJS (cleanupDex (pre ++ (vaultLink inner ++
      (dexAnnFull cid mid (simpleHash (trimJS (pre ++ vaultLink inner))) ++ [' '])))) from rfl]
  rw [trimJS_idem, htrim2]
  simp

theorem C2_resync_witness :
    fieldOK ("c1").toList = true ∧ fieldOK ("m1").toList = true ∧
    ((syncContactMemo (fun _ => RemoteAnswer.ok ⟨("m1").toList, true⟩) ("c1").toList
      [("Met ").toList ++ vaultLink ("Jane").toList] 0).1 =
        SyncResult.ok ("m1").toList ∧
    (findContentBlockEnd
      (syncContactMemo (fun _ => RemoteAnswer.ok ⟨("m1").toList, true⟩) ("c1").toList
        [("Met ").toList ++ vaultLink ("Jane").toList] 0).2 0).syncStatus =
        SyncStatus.synced) :=
  ⟨by decide, by decide,
    C2_resync_after_sync ("Met ").toList ("Jane").toList ("c1").toList ("m1").toList true
      (by decide) (by decide) (by decide) (by decide) (by decide) (by decide) (by decide)⟩

theorem idOK_no_lbrack {v : Str} (hv : idOK v = true) : ('[') ∉ v := by
  intro hmem
  have h := idOK_all hv '[' hmem
  have h91 : ('[').toNat = 91 := rfl
  rcases idChar_toNat h with ⟨a, b⟩ | ⟨a, b⟩ | a | a <;> omega

/-- C7: multi-mention isolation.  On a line carrying two independent
Dex-URL-mention+annotation pairs for distinct contact ids `B` (first) and
`A` (second), `rewriteStartLine A newId newHash` — the annotation-rewrite
step of `syncContactMemo` — rewrites only the annotation immediately
following `A`'s link: the prefix, `B`'s link syntax, `B`'s annotation and
the text between the pairs are byte-for-byte unchanged, `A`'s link syntax
is unchanged, and the whitespace after `A`'s old annotation is preserved. -/
theorem C7_multiMention_isolation
    (pre dispB B wsB bodyB mid dispA A wsA bodyA ws2 rest newId newHash : Str)
    (hbrpre : ('[') ∉ pre)
    (hrdB : (']') ∉ dispB) (hbrdB : ('[') ∉ dispB)
    (hB : idOK B = true) (hA : idOK A = true) (hne : A ≠ B)
    (hwB : ∀ c ∈ wsB, isJsWS c = true) (hbrbodyB : ('[') ∉ bodyB)
    (hbrmid : ('[') ∉ mid)
    (hrdA : (']') ∉ dispA) (hwA : ∀ c ∈ wsA, isJsWS c = true)
    (hbA : ('%') ∉ bodyA) (hw2 : ∀ c ∈ ws2, isJsWS c = true)
    (hrest : rest = [] ∨ ∃ d t, rest = d :: t ∧ isJsWS d = false) :
    rewriteStartLine A newId newHash
      (pre ++ (dexLink dispB B ++
        ((wsB ++ ((("%%dex:").toList) ++ (bodyB ++ ((("%%").toList) ++ mid)))) ++
          (dexLink dispA A ++
            (wsA ++ ((("%%dex:").toList) ++ (bodyA ++ ((("%%").toList) ++
              (ws2 ++ rest))))))))) =
    pre ++ (dexLink dispB B ++
      ((wsB ++ ((("%%dex:").toList) ++ (bodyB ++ ((("%%").toList) ++ mid)))) ++
        (dexLink dispA A ++ (dexAnnFull A newId newHash ++ (ws2 ++ rest))))) := by
  set midseg := wsB ++ ((("%%dex:").toList) ++ (bodyB ++ ((("%%").toList) ++ mid)))
    with hmidseg
  set tailA := wsA ++ ((("%%dex:").toList) ++ (bodyA ++ ((("%%").toList) ++ (ws2 ++ rest))))
    with htailA
  have hAall := idOK_all hA
  have hBall := idOK_all hB
  have hbrmidseg : ('[') ∉ midseg := by
    rw [hmidseg]
    intro hmem
    simp only [List.mem_append] at hmem
    rcases hmem with h | h | h | h | h
    · exact absurd (hwB _ h) (by decide)
    · exact absurd h (by decide)
    · exact hbrbodyB h
    · exact absurd h (by decide)
    · exact hbrmid h
  have hbrB : ('[') ∉ B := idOK_no_lbrack hB
  have hfail : matchDexUrlWithCommentAt A
      (dexLink dispB B ++ (midseg ++ (dexLink dispA A ++ tailA))) = none :=
    matchDexUrlWithCommentAt_fail_ne hrdB hAall hBall hne _
  have hmatchA : matchDexUrlWithCommentAt A (dexLink dispA A ++ tailA) =
      some ⟨dexLink dispA A, ws2, rest⟩ := by
    rw [htailA]
    exact matchDexUrlWithCommentAt_structured A hrdA hwA hbA hw2 hrest
  have hU : ('[') ∉ dispB ++ (']' :: ('(' :: (urlLit ++ (B ++ (')' :: midseg))))) := by
    intro hmem
    simp only [List.mem_append, List.mem_cons] at hmem
    rcases hmem with h | h | h | h | h | h | h
    · exact hbrdB h
    · exact absurd h (by decide)
    · exact absurd h (by decide)
    · exact absurd h (by decide)
    · exact hbrB h
    · exact absurd h (by decide)
    · exact hbrmidseg h
  have hT : dispB ++ (']' :: ('(' :: (urlLit ++
        (B ++ (')' :: (midseg ++ (dexLink dispA A ++ tailA))))))) =
      (dispB ++ (']' :: ('(' :: (urlLit ++ (B ++ (')' :: midseg)))))) ++
        (dexLink dispA A ++ tailA) := by
    simp [List.append_assoc]
  have hscanU : scanFirst (matchDexUrlWithCommentAt A)
      ((dispB ++ (']' :: ('(' :: (urlLit ++ (B ++ (')' :: midseg)))))) ++
        (dexLink dispA A ++ tailA)) =
      some ((dispB ++ (']' :: ('(' :: (urlLit ++ (B ++ (')' :: midseg)))))),
        ⟨dexLink dispA A, ws2, rest⟩) := by
    rw [scanFirst_skip_key (fun t a h => matchDexUrlWithCommentAt_head h) hU]
    rw [scanFirst_of_match hmatchA]
    simp
  have hSeq : dexLink dispB B ++ (midseg ++ (dexLink dispA A ++ tailA)) =
      '[' :: (dispB ++ (']' :: ('(' :: (urlLit ++
        (B ++ (')' :: (midseg ++ (dexLink dispA A ++ tailA)))))))) := by
    rw [dexLink_append]
  have hscanS : scanFirst (matchDexUrlWithCommentAt A)
      (dexLink dispB B ++ (midseg ++ (dexLink dispA A ++ tailA))) =
      some ('[' :: (dispB ++ (']' :: ('(' :: (urlLit ++ (B ++ (')' :: midseg)))))),
        ⟨dexLink dispA A, ws2, rest⟩) := by
    rw [hSeq]
    rw [scanFirst_cons_none (hSeq ▸ hfail)]
    rw [hT, hscanU]
    rfl
  have hscan : scanFirst (matchDexUrlWithCommentAt A)
      (pre ++ (dexLink dispB B ++ (midseg ++ (dexLink dispA A ++ tailA)))) =
      some (pre ++ ('[' :: (dispB ++ (']' :: ('(' :: (urlLit ++ (B ++ (')' :: midseg))))))),
        ⟨dexLink dispA A, ws2, rest⟩) := by
    rw [scanFirst_skip_key (fun t a h => matchDexUrlWithCommentAt_head h) hbrpre]
    rw [hscanS]
    rfl
  rw [rewriteStartLine_withComment hscan]
  simp [dexLink, List.append_assoc]

theorem C7_multiMention_witness :
    idOK ("a1").toList = true ∧ idOK ("b2").toList = true ∧
    rewriteStartLine ("a1").toList ("m9").toList ("zz").toList
      (("x ").toList ++ (dexLink ("Bob").toList ("b2").toList ++
        (((" ").toList ++ ((("%%dex:").toList) ++ ((("contact-id=b2,memo-id=mb,hash=h2").toList) ++
          ((("%%").toList) ++ ((" and ").toList)))))  ++
          (dexLink ("Ann").toList ("a1").toList ++
            (((" ").toList) ++ ((("%%dex:").toList) ++
              ((("contact-id=a1,memo-id=ma,hash=h1").toList) ++ ((("%%").toList) ++
              (([] : Str) ++ ([] : Str))))))))))  =
    ("x ").toList ++ (dexLink ("Bob").toList ("b2").toList ++
      (((" ").toList ++ ((("%%dex:").toList) ++ ((("contact-id=b2,memo-id=mb,hash=h2").toList) ++
        ((("%%").toList) ++ ((" and ").toList)))))  ++
        (dexLink ("Ann").toList ("a1").toList ++
          (dexAnnFull ("a1").toList ("m9").toList ("zz").toList ++
            (([] : Str) ++ ([] : Str)))))) :=
  ⟨by decide, by decide,
    C7_multiMention_isolation ("x ").toList ("Bob").toList ("b2").toList (" ").toList
      ("contact-id=b2,memo-id=mb,hash=h2").toList (" and ").toList
      ("Ann").toList ("a1").toList (" ").toList
      ("contact-id=a1,memo-id=ma,hash=h1").toList ([] : Str) ([] : Str)
      ("m9").toList ("zz").toList
      (by decide) (by decide) (by decide) (by decide) (by decide) (by decide)
      (by decide) (by decide) (by decide) (by decide) (by decide) (by decide)
      (by decide) (Or.inl rfl)⟩
